import Mathlib

/-!
# vocalwave/go-sdk — `qrng/client.go`

A shallow embedding of the QRNG client (`Client.Generate`, `Client.Health`)
together with the parts of the Go standard library whose behaviour the client
relies on (`fmt`, `net/url`, `net/http` header canonicalisation,
`encoding/json`), followed by theorems about the embedded program.

Go strings and byte slices are finite sequences of bytes; they are modelled as
lists of `Fin 256`.
-/

set_option maxRecDepth 100000
set_option maxHeartbeats 1000000

namespace Qrng

/-! ## Bytes and strings -/

abbrev Byte := Fin 256

/-- A Go `string` / `[]byte`: a finite sequence of bytes. -/
abbrev Bytes := List Byte

/-- The bytes of an ASCII string literal of the source. -/
def ascii (s : String) : Bytes := s.data.map (fun c => Fin.ofNat c.toNat)

/-- Go's `fmt.Sprintf("%d", n)` for an integer: decimal digits, with a leading
minus sign for negative values. -/
def fmtInt (n : Int) : Bytes :=
  if n < 0 then (45 : Byte) :: ascii (Nat.repr n.natAbs) else ascii (Nat.repr n.toNat)

/-- Go's built-in `<` on strings is bytewise lexicographic; this is `a <= b`. -/
def bytesLe : Bytes → Bytes → Bool
  | [], _ => true
  | _ :: _, [] => false
  | a :: as, b :: bs => if a.val < b.val then true else if b.val < a.val then false else bytesLe as bs

/-! ## `net/url` -/

def isAlnum (c : Byte) : Bool :=
  (48 ≤ c.val && c.val ≤ 57) || (65 ≤ c.val && c.val ≤ 90) || (97 ≤ c.val && c.val ≤ 122)

/-- `url.shouldEscape(c, encodeQueryComponent)`: everything except the
unreserved characters (alphanumerics and `-`, `_`, `.`, `~`) is escaped. -/
def shouldEscape (c : Byte) : Bool :=
  !(isAlnum c || c.val = 45 || c.val = 95 || c.val = 46 || c.val = 126)

/-- The table `"0123456789ABCDEF"` of `net/url`. -/
def upperhex (n : Nat) : Byte :=
  if n % 16 < 10 then Fin.ofNat (48 + n % 16) else Fin.ofNat (55 + n % 16)

/-- `url.QueryEscape`. -/
def queryEscape : Bytes → Bytes
  | [] => []
  | c :: cs =>
    if c.val = 32 then (43 : Byte) :: queryEscape cs
    else if shouldEscape c then (37 : Byte) :: upperhex (c.val / 16) :: upperhex (c.val % 16) :: queryEscape cs
    else c :: queryEscape cs

/-- `url.ishex`. -/
def ishex (c : Byte) : Bool :=
  (48 ≤ c.val && c.val ≤ 57) || (97 ≤ c.val && c.val ≤ 102) || (65 ≤ c.val && c.val ≤ 70)

/-- `url.unhex`. -/
def unhex (c : Byte) : Nat :=
  if 48 ≤ c.val ∧ c.val ≤ 57 then c.val - 48
  else if 97 ≤ c.val ∧ c.val ≤ 102 then c.val - 97 + 10
  else if 65 ≤ c.val ∧ c.val ≤ 70 then c.val - 65 + 10
  else 0

/-- `url.QueryUnescape`: `none` stands for the `EscapeError` Go reports when
a `%` is not followed by two hexadecimal digits. -/
def queryUnescape : Bytes → Option Bytes
  | [] => some []
  | c :: cs =>
    if c.val = 37 then
      match cs with
      | h1 :: h2 :: rest =>
        if ishex h1 && ishex h2 then
          (queryUnescape rest).map (fun r => Fin.ofNat (unhex h1 * 16 + unhex h2) :: r)
        else none
      | _ => none
    else if c.val = 43 then (queryUnescape cs).map (fun r => (32 : Byte) :: r)
    else (queryUnescape cs).map (fun r => c :: r)

/-- `url.Values`: a map from keys to lists of values.  It is kept as an
association list with one entry per key; the order of the entries is not
observable because `Encode` sorts the keys. -/
abbrev Values := List (Bytes × List Bytes)

/-- `url.Values.Add`: append a value to the list stored under the key. -/
def Values.add : Values → Bytes → Bytes → Values
  | [], k, v => [(k, [v])]
  | (k', vs) :: rest, k, v => if k' = k then (k', vs ++ [v]) :: rest else (k', vs) :: Values.add rest k v

/-- Insertion of an entry into a list of entries sorted by key. -/
def insertByKey (e : Bytes × List Bytes) : Values → Values
  | [] => [e]
  | x :: xs => if bytesLe e.1 x.1 then e :: x :: xs else x :: insertByKey e xs

/-- The entries in ascending key order (`slices.Sort(keys)` in `Encode`). -/
def sortByKey : Values → Values
  | [] => []
  | e :: es => insertByKey e (sortByKey es)

/-- The inner loop of `Encode`: write `key=value` for each value of one key,
preceded by `&` whenever the buffer is not empty. -/
def encodeKey (keyEscaped : Bytes) : Bytes → List Bytes → Bytes
  | buf, [] => buf
  | buf, v :: vs =>
    encodeKey keyEscaped
      ((if buf.length > 0 then buf ++ [(38 : Byte)] else buf) ++ keyEscaped ++ [(61 : Byte)] ++ queryEscape v) vs

/-- The outer loop of `Encode` over the sorted keys. -/
def encodeLoop : Bytes → Values → Bytes
  | buf, [] => buf
  | buf, (k, vs) :: rest => encodeLoop (encodeKey (queryEscape k) buf vs) rest

/-- `url.Values.Encode`: the "URL encoded" form `bar=baz&foo=quux`, sorted by key. -/
def Values.encode (v : Values) : Bytes := encodeLoop [] (sortByKey v)

/-- `strings.Cut(s, sep)` for a one-byte separator: the text before the first
separator and the text after it (empty when there is no separator). -/
def cut (sep : Byte) : Bytes → Bytes × Bytes
  | [] => ([], [])
  | c :: cs => if c = sep then ([], cs) else ((cut sep cs).1.cons c, (cut sep cs).2)

/-- The pieces of a query string between `&` separators. -/
def splitAmp : Bytes → List Bytes
  | [] => [[]]
  | c :: cs =>
    if c.val = 38 then [] :: splitAmp cs
    else match splitAmp cs with
      | [] => [[c]]
      | p :: ps => (c :: p) :: ps

/-- One iteration of the loop of `url.ParseQuery` on the piece `kv`: pieces
that contain `;`, or an invalid escape, are skipped and make the call report an
error (`false`); empty pieces are skipped silently. -/
def parsePiece (acc : Values × Bool) (kv : Bytes) : Values × Bool :=
  if (59 : Byte) ∈ kv then (acc.1, false)
  else if kv = [] then acc
  else
    match queryUnescape (cut 61 kv).1 with
    | none => (acc.1, false)
    | some key =>
      match queryUnescape (cut 61 kv).2 with
      | none => (acc.1, false)
      | some value => (Values.add acc.1 key value, acc.2)

/-- `url.ParseQuery`: the decoded values, and whether the call returned a nil error. -/
def parseQuery (query : Bytes) : Values × Bool :=
  (splitAmp query).foldl parsePiece ([], true)

/-! ## `net/http` requests -/

/-- `httpguts.IsTokenRune` restricted to bytes (`validHeaderFieldByte`). -/
def validHeaderFieldByte (c : Byte) : Bool :=
  isAlnum c || c.val ∈ [33, 35, 36, 37, 38, 39, 42, 43, 45, 46, 94, 95, 96, 124, 126]

/-- The loop of `textproto.canonicalMIMEHeaderKey`: upper-case the first letter
and every letter after a hyphen, lower-case the rest. -/
def canonLoop : Bool → Bytes → Bytes
  | _, [] => []
  | upper, c :: cs =>
    let c1 : Byte :=
      if upper && (97 ≤ c.val && c.val ≤ 122) then Fin.ofNat (c.val - 32)
      else if !upper && (65 ≤ c.val && c.val ≤ 90) then Fin.ofNat (c.val + 32)
      else c
    c1 :: canonLoop (c1.val = 45) cs

/-- `textproto.CanonicalMIMEHeaderKey`: keys with a byte that is not a token
character are returned unchanged. -/
def canonicalMIMEHeaderKey (k : Bytes) : Bytes :=
  if k.all validHeaderFieldByte then canonLoop true k else k

/-- `http.Header`. -/
abbrev Header := List (Bytes × List Bytes)

/-- `http.Header.Set`: replace the values stored under the canonical form of the key. -/
def Header.set (h : Header) (key value : Bytes) : Header :=
  (canonicalMIMEHeaderKey key, [value]) :: h.filter (fun e => e.1 ≠ canonicalMIMEHeaderKey key)

/-- `http.Header.Get`: the first value stored under the canonical form of the key. -/
def Header.get (h : Header) (key : Bytes) : Bytes :=
  match h.find? (fun e => e.1 = canonicalMIMEHeaderKey key) with
  | some (_, v :: _) => v
  | _ => []

/-- An outgoing `*http.Request`: method, the URL string it was built from, and headers
(the request body is always nil in this client). -/
structure Request where
  method : Bytes
  url : Bytes
  header : Header
deriving DecidableEq

/-! ## `encoding/json`: values and string literals -/

/-- A JSON document as `encoding/json` reads it.  Numbers keep the text of their
literal (Go converts them to `float64`; the rounding is not modelled), strings
and object keys are stored unquoted, and an object keeps its members in
document order, repeated keys included. -/
inductive JSON where
  | null
  | bool (b : Bool)
  | num (lit : Bytes)
  | str (s : Bytes)
  | arr (items : List JSON)
  | obj (members : List (Bytes × JSON))

/-- The encoding `EF BF BD` of `utf8.RuneError` (U+FFFD). -/
def replacementChar : Bytes := [239, 191, 189]

def isCont (c : Byte) : Bool := 128 ≤ c.val && c.val ≤ 191

/-- The size of the well-formed UTF-8 sequence at the head of `s` when its first
byte is not ASCII, as `utf8.DecodeRune` accepts it; `0` when `DecodeRune`
returns `(RuneError, 1)`. -/
def utf8SeqLen : Bytes → Nat
  | b0 :: b1 :: rest =>
    if 194 ≤ b0.val ∧ b0.val ≤ 223 then (if isCont b1 then 2 else 0)
    else if 224 ≤ b0.val ∧ b0.val ≤ 239 then
      match rest with
      | b2 :: _ =>
        let lo := if b0.val = 224 then 160 else 128
        let hi := if b0.val = 237 then 159 else 191
        if lo ≤ b1.val ∧ b1.val ≤ hi ∧ isCont b2 then 3 else 0
      | [] => 0
    else if 240 ≤ b0.val ∧ b0.val ≤ 244 then
      match rest with
      | b2 :: b3 :: _ =>
        let lo := if b0.val = 240 then 144 else 128
        let hi := if b0.val = 244 then 143 else 191
        if lo ≤ b1.val ∧ b1.val ≤ hi ∧ isCont b2 ∧ isCont b3 then 4 else 0
      | _ => 0
    else 0
  | _ => 0

/-- `utf8.EncodeRune` (surrogates and values above U+10FFFF become U+FFFD). -/
def encodeRune (r : Nat) : Bytes :=
  if r < 128 then [Fin.ofNat r]
  else if r < 2048 then [Fin.ofNat (192 + r / 64), Fin.ofNat (128 + r % 64)]
  else if (55296 ≤ r ∧ r < 57344) ∨ 1114111 < r then replacementChar
  else if r < 65536 then
    [Fin.ofNat (224 + r / 4096), Fin.ofNat (128 + r / 64 % 64), Fin.ofNat (128 + r % 64)]
  else
    [Fin.ofNat (240 + r / 262144), Fin.ofNat (128 + r / 4096 % 64),
     Fin.ofNat (128 + r / 64 % 64), Fin.ofNat (128 + r % 64)]

/-- `json.getu4`: the value of a `\uXXXX` escape at the head of `s`, `none` for Go's `-1`. -/
def getu4 : Bytes → Option Nat
  | b :: u :: h1 :: h2 :: h3 :: h4 :: _ =>
    if b.val = 92 ∧ u.val = 117 ∧ ishex h1 ∧ ishex h2 ∧ ishex h3 ∧ ishex h4 then
      some (((unhex h1 * 16 + unhex h2) * 16 + unhex h3) * 16 + unhex h4)
    else none
  | _ => none

/-- The byte a one-letter escape stands for. -/
def escapeByte (c : Byte) : Byte :=
  if c.val = 98 then 8 else if c.val = 102 then 12 else if c.val = 110 then 10
  else if c.val = 114 then 13 else if c.val = 116 then 9 else c

/-- The main loop of `json.unquoteBytes` on the text between the quotes of a
string literal the scanner has accepted.  `skip` is the number of bytes
of the head that the previous step has already consumed (`r += size`); they
are copied when `copy` holds (the tail of a well-formed UTF-8 sequence) and
dropped otherwise (the tail of an escape). -/
def unquoteLoop : Nat → Bool → Bytes → Bytes
  | _, _, [] => []
  | k + 1, copy, c :: cs => if copy then c :: unquoteLoop k copy cs else unquoteLoop k copy cs
  | 0, _, c :: cs =>
    if c.val = 92 then
      match cs with
      | [] => []
      | e :: _ =>
        if e.val = 117 then
          match getu4 (c :: cs) with
          | none => []
          | some rr =>
            if 55296 ≤ rr ∧ rr < 57344 then
              match getu4 (cs.drop 5) with
              | some rr1 =>
                if rr < 56320 ∧ 56320 ≤ rr1 ∧ rr1 < 57344 then
                  encodeRune ((rr - 55296) * 1024 + (rr1 - 56320) + 65536) ++ unquoteLoop 11 false cs
                else replacementChar ++ unquoteLoop 5 false cs
              | none => replacementChar ++ unquoteLoop 5 false cs
            else encodeRune rr ++ unquoteLoop 5 false cs
        else escapeByte e :: unquoteLoop 1 false cs
    else if c.val < 128 then c :: unquoteLoop 0 false cs
    else if utf8SeqLen (c :: cs) = 0 then replacementChar ++ unquoteLoop 0 false cs
    else c :: unquoteLoop (utf8SeqLen (c :: cs) - 1) true cs

/-- `json.unquote` applied to the text between the quotes: escapes are
replaced and ill-formed UTF-8 is coerced to U+FFFD. -/
def unquote (raw : Bytes) : Bytes := unquoteLoop 0 false raw

/-! ## `encoding/json`: the scanner

`scanner.go` is a byte-at-a-time state machine with a stack of parse states.
The model follows its step functions one by one and additionally builds the
value that the decoder would read, so that scanning and value construction
are a single pass over the input. -/

/-- The step functions of `scanner.go`.  States inside a literal carry the text
read so far, in reverse. -/
inductive Step where
  | beginValueOrEmpty
  | beginValue
  | beginStringOrEmpty
  | beginString
  | endValue
  | endTop
  | inString (raw : Bytes)
  | inStringEsc (raw : Bytes)
  | inStringEscU (raw : Bytes) (seen : Nat)
  | neg (lit : Bytes)
  | zero (lit : Bytes)
  | one (lit : Bytes)
  | dot (lit : Bytes)
  | dot0 (lit : Bytes)
  | e (lit : Bytes)
  | eSign (lit : Bytes)
  | e0 (lit : Bytes)
  | literal (expect : Bytes) (value : JSON)
  | error

/-- The entries of `scanner.parseState` (`parseObjectKey`, `parseObjectValue`,
`parseArrayValue`), each with the part of the container read so far, in reverse. -/
inductive Frame where
  | objectKey (members : List (Bytes × JSON)) (key : Option Bytes)
  | objectValue (members : List (Bytes × JSON)) (key : Bytes)
  | arrayValue (items : List JSON)

/-- The op-codes returned by a step that the callers distinguish. -/
inductive Op where
  | continue
  | endContainer
  | end
  | error
deriving DecidableEq

/-- The state of a `json.scanner`, with the completed top-level value. -/
structure Scanner where
  step : Step
  parseState : List Frame
  endTop : Bool
  top : Option JSON

/-- `scanner.reset`. -/
def Scanner.reset : Scanner := ⟨Step.beginValue, [], false, none⟩

/-- `scanner.maxNestingDepth`. -/
def maxNestingDepth : Nat := 10000

/-- `json.isSpace`. -/
def isSpace (c : Byte) : Bool := c.val = 32 || c.val = 9 || c.val = 13 || c.val = 10

def isDigit (c : Byte) : Bool := 48 ≤ c.val && c.val ≤ 57

/-- `scanner.error`. -/
def Scanner.fail (s : Scanner) : Scanner × Op := ({ s with step := Step.error }, Op.error)

/-- Hand a completed value to the innermost open container, or record it as the
top-level value. -/
def Scanner.deliver (s : Scanner) (v : JSON) : Scanner :=
  match s.parseState with
  | [] => { s with step := Step.endValue, top := some v }
  | Frame.objectKey ms _ :: rest =>
    match v with
    | JSON.str k => { s with step := Step.endValue, parseState := Frame.objectKey ms (some k) :: rest }
    | _ => { s with step := Step.endValue }
  | Frame.objectValue ms k :: rest =>
    { s with step := Step.endValue, parseState := Frame.objectValue ((k, v) :: ms) k :: rest }
  | Frame.arrayValue items :: rest =>
    { s with step := Step.endValue, parseState := Frame.arrayValue (v :: items) :: rest }

/-- `scanner.pushParseState`. -/
def Scanner.pushParseState (s : Scanner) (f : Frame) (next : Step) : Scanner × Op :=
  if s.parseState.length + 1 ≤ maxNestingDepth then
    ({ s with step := next, parseState := f :: s.parseState }, Op.continue)
  else Scanner.fail { s with parseState := f :: s.parseState }

/-- `scanner.popParseState`, handing the closed container `v` to its parent. -/
def Scanner.popParseState (s : Scanner) (v : JSON) : Scanner × Op :=
  match s.parseState.tail with
  | [] => ({ s with step := Step.endTop, parseState := [], endTop := true, top := some v }, Op.endContainer)
  | f :: rest => (Scanner.deliver { s with parseState := f :: rest } v, Op.endContainer)

/-- `stateEndTop`: only space may follow the top-level value; the complaint is
raised on the next call. -/
def stateEndTop (s : Scanner) (c : Byte) : Scanner × Op :=
  if isSpace c then (s, Op.end) else ({ s with step := Step.error }, Op.end)

/-- `stateEndValue`. -/
def stateEndValue (s : Scanner) (c : Byte) : Scanner × Op :=
  match s.parseState with
  | [] => stateEndTop { s with step := Step.endTop, endTop := true } c
  | Frame.objectKey ms key :: rest =>
    if isSpace c then ({ s with step := Step.endValue }, Op.continue)
    else if c.val = 58 then
      ({ s with step := Step.beginValue, parseState := Frame.objectValue ms (key.getD []) :: rest }, Op.continue)
    else Scanner.fail s
  | Frame.objectValue ms _ :: rest =>
    if isSpace c then ({ s with step := Step.endValue }, Op.continue)
    else if c.val = 44 then
      ({ s with step := Step.beginString, parseState := Frame.objectKey ms none :: rest }, Op.continue)
    else if c.val = 125 then Scanner.popParseState s (JSON.obj ms.reverse)
    else Scanner.fail s
  | Frame.arrayValue items :: _ =>
    if isSpace c then ({ s with step := Step.endValue }, Op.continue)
    else if c.val = 44 then ({ s with step := Step.beginValue }, Op.continue)
    else if c.val = 93 then Scanner.popParseState s (JSON.arr items.reverse)
    else Scanner.fail s

/-- `stateBeginValue`. -/
def stateBeginValue (s : Scanner) (c : Byte) : Scanner × Op :=
  if isSpace c then (s, Op.continue)
  else if c.val = 123 then Scanner.pushParseState s (Frame.objectKey [] none) Step.beginStringOrEmpty
  else if c.val = 91 then Scanner.pushParseState s (Frame.arrayValue []) Step.beginValueOrEmpty
  else if c.val = 34 then ({ s with step := Step.inString [] }, Op.continue)
  else if c.val = 45 then ({ s with step := Step.neg [c] }, Op.continue)
  else if c.val = 48 then ({ s with step := Step.zero [c] }, Op.continue)
  else if c.val = 116 then ({ s with step := Step.literal (ascii "rue") (JSON.bool true) }, Op.continue)
  else if c.val = 102 then ({ s with step := Step.literal (ascii "alse") (JSON.bool false) }, Op.continue)
  else if c.val = 110 then ({ s with step := Step.literal (ascii "ull") JSON.null }, Op.continue)
  else if 49 ≤ c.val ∧ c.val ≤ 57 then ({ s with step := Step.one [c] }, Op.continue)
  else Scanner.fail s

/-- `stateBeginString`. -/
def stateBeginString (s : Scanner) (c : Byte) : Scanner × Op :=
  if isSpace c then (s, Op.continue)
  else if c.val = 34 then ({ s with step := Step.inString [] }, Op.continue)
  else Scanner.fail s

/-- The end of a numeric literal: the number is complete before the byte `c`,
which is then handled by `stateEndValue`. -/
def endNumber (s : Scanner) (lit : Bytes) (c : Byte) : Scanner × Op :=
  stateEndValue (Scanner.deliver s (JSON.num lit.reverse)) c

/-- `state0`, also the tail of `state1`. -/
def state0 (s : Scanner) (lit : Bytes) (c : Byte) : Scanner × Op :=
  if c.val = 46 then ({ s with step := Step.dot (c :: lit) }, Op.continue)
  else if c.val = 101 ∨ c.val = 69 then ({ s with step := Step.e (c :: lit) }, Op.continue)
  else endNumber s lit c

/-- `stateESign`, also the tail of `stateE`. -/
def stateESign (s : Scanner) (lit : Bytes) (c : Byte) : Scanner × Op :=
  if isDigit c then ({ s with step := Step.e0 (c :: lit) }, Op.continue) else Scanner.fail s

/-- One call `s.step(s, c)`. -/
def Scanner.next (s : Scanner) (c : Byte) : Scanner × Op :=
  match s.step with
  | Step.beginValueOrEmpty =>
    if isSpace c then (s, Op.continue)
    else if c.val = 93 then stateEndValue s c
    else stateBeginValue s c
  | Step.beginValue => stateBeginValue s c
  | Step.beginStringOrEmpty =>
    if isSpace c then (s, Op.continue)
    else if c.val = 125 then
      match s.parseState with
      | Frame.objectKey ms _ :: rest =>
        stateEndValue { s with parseState := Frame.objectValue ms [] :: rest } c
      | _ => stateEndValue s c
    else stateBeginString s c
  | Step.beginString => stateBeginString s c
  | Step.endValue => stateEndValue s c
  | Step.endTop => stateEndTop s c
  | Step.inString raw =>
    if c.val = 34 then (Scanner.deliver s (JSON.str (unquote raw.reverse)), Op.continue)
    else if c.val = 92 then ({ s with step := Step.inStringEsc (c :: raw) }, Op.continue)
    else if c.val < 32 then Scanner.fail s
    else ({ s with step := Step.inString (c :: raw) }, Op.continue)
  | Step.inStringEsc raw =>
    if c.val ∈ [98, 102, 110, 114, 116, 92, 47, 34] then ({ s with step := Step.inString (c :: raw) }, Op.continue)
    else if c.val = 117 then ({ s with step := Step.inStringEscU (c :: raw) 0 }, Op.continue)
    else Scanner.fail s
  | Step.inStringEscU raw seen =>
    if ishex c then
      (if seen < 3 then ({ s with step := Step.inStringEscU (c :: raw) (seen + 1) }, Op.continue)
       else ({ s with step := Step.inString (c :: raw) }, Op.continue))
    else Scanner.fail s
  | Step.neg lit =>
    if c.val = 48 then ({ s with step := Step.zero (c :: lit) }, Op.continue)
    else if 49 ≤ c.val ∧ c.val ≤ 57 then ({ s with step := Step.one (c :: lit) }, Op.continue)
    else Scanner.fail s
  | Step.one lit =>
    if isDigit c then ({ s with step := Step.one (c :: lit) }, Op.continue) else state0 s lit c
  | Step.zero lit => state0 s lit c
  | Step.dot lit =>
    if isDigit c then ({ s with step := Step.dot0 (c :: lit) }, Op.continue) else Scanner.fail s
  | Step.dot0 lit =>
    if isDigit c then ({ s with step := Step.dot0 (c :: lit) }, Op.continue)
    else if c.val = 101 ∨ c.val = 69 then ({ s with step := Step.e (c :: lit) }, Op.continue)
    else endNumber s lit c
  | Step.e lit =>
    if c.val = 43 ∨ c.val = 45 then ({ s with step := Step.eSign (c :: lit) }, Op.continue)
    else stateESign s lit c
  | Step.eSign lit => stateESign s lit c
  | Step.e0 lit =>
    if isDigit c then ({ s with step := Step.e0 (c :: lit) }, Op.continue) else endNumber s lit c
  | Step.literal expect value =>
    match expect with
    | [] => Scanner.fail s
    | x :: rest =>
      if c = x then
        (match rest with
         | [] => (Scanner.deliver s value, Op.continue)
         | _ :: _ => ({ s with step := Step.literal rest value }, Op.continue))
      else Scanner.fail s
  | Step.error => (s, Op.error)

/-! ## `encoding/json`: errors, `Unmarshal` and `Decoder` -/

/-- The errors `encoding/json` produces: a `*SyntaxError` with the offset at
which it was detected, or an `*UnmarshalTypeError` with its `Value` description
and the JSON name of the struct field being decoded (empty at top level). -/
inductive JsonError where
  | syntaxError (offset : Nat)
  | unmarshalType (value : Bytes) (field : Bytes)
deriving DecidableEq

/-- What makes a Go `error` returned by the standard library: an error of the
network or of a reader (known by its text only), an error of `encoding/json`,
`io.EOF` or `io.ErrUnexpectedEOF`. -/
inductive Cause where
  | lib (text : Bytes)
  | json (e : JsonError)
  | eof
  | unexpectedEOF
deriving DecidableEq

/-- The loop of `checkValid`: feed every byte to the scanner.  A syntax error
carries the number of bytes consumed when the scanner raised it; the scanner
stays in its error state from then on, so the loop can stop there. -/
def scanAll : Scanner → Nat → Bytes → Except JsonError Scanner
  | s, _, [] => Except.ok s
  | s, n, c :: cs =>
    match (s.next c).1.step with
    | Step.error => Except.error (JsonError.syntaxError (n + 1))
    | _ => scanAll (s.next c).1 (n + 1) cs

/-- `scanner.eof` after `checkValid` has consumed all `n` bytes without error,
followed by the decoder's read of the value: the top-level value, or a syntax
error at the end of the input. -/
def scanEOF (s : Scanner) (n : Nat) : Except JsonError JSON :=
  if s.endTop then (match s.top with | some v => Except.ok v | none => Except.error (JsonError.syntaxError n))
  else
    match (s.next 32).1.endTop, (s.next 32).1.top with
    | true, some v => Except.ok v
    | _, _ => Except.error (JsonError.syntaxError n)

/-- The document `json.Unmarshal` decodes from `data`, or the syntax error of `checkValid`. -/
def parseDocument (data : Bytes) : Except JsonError JSON :=
  match scanAll Scanner.reset 0 data with
  | Except.error e => Except.error e
  | Except.ok s => scanEOF s data.length

/-- A response body as a reader: the bytes it yields and how it ends, with a
clean end of file (`none`) or with a read error. -/
structure Body where
  data : Bytes
  err : Option Bytes
deriving DecidableEq

/-- `io.ReadAll`: everything read, and the read error if there was one. -/
def readAll (b : Body) : Bytes × Option Cause := (b.data, b.err.map Cause.lib)

/-- The end of input in `Decoder.readValue`: a read error is returned as it is;
at a clean end of file a complete top-level value is accepted, otherwise the
error is `io.ErrUnexpectedEOF` when some non-space byte was read and `io.EOF`
when none was. -/
def readValueEnd (s : Scanner) (b : Body) : Except Cause JSON :=
  match b.err with
  | some e => Except.error (Cause.lib e)
  | none =>
    match (s.next 32).2, (s.next 32).1.top with
    | Op.end, some v => Except.ok v
    | _, _ => if b.data.all isSpace then Except.error Cause.eof else Except.error Cause.unexpectedEOF

/-- The scanning loop of `Decoder.readValue`: stop at the end of the first
value of the stream, whatever follows it. -/
def readValueLoop (b : Body) : Scanner → Nat → Bytes → Except Cause JSON
  | s, _, [] => readValueEnd s b
  | s, n, c :: cs =>
    match (s.next c).2, (s.next c).1.top with
    | Op.error, _ => Except.error (Cause.json (JsonError.syntaxError (n + 1)))
    | Op.end, some v => Except.ok v
    | Op.endContainer, some v =>
      if (s.next c).1.parseState.isEmpty then Except.ok v else readValueLoop b (s.next c).1 (n + 1) cs
    | _, _ => readValueLoop b (s.next c).1 (n + 1) cs

/-- `Decoder.readValue` on a fresh decoder: the first JSON value of the stream. -/
def readValue (b : Body) : Except Cause JSON := readValueLoop b Scanner.reset 0 b.data

/-! ## `encoding/json`: decoding into Go values -/

/-- The values `encoding/json` stores in an `interface{}`: `nil`, `bool`,
`float64` (kept as the text of the literal), `string`, `[]interface{}` and
`map[string]interface{}` (one entry per key). -/
inductive GoValue where
  | nil
  | bool (b : Bool)
  | float64 (lit : Bytes)
  | string (s : Bytes)
  | slice (items : List GoValue)
  | map (entries : List (Bytes × GoValue))

/-- A Go `map[string]interface{}`: `none` is the nil map. -/
abbrev GoMap := Option (List (Bytes × GoValue))

/-- The assignment `m[k] = v` on the entries of a map. -/
def mapSet : List (Bytes × GoValue) → Bytes → GoValue → List (Bytes × GoValue)
  | [], k, v => [(k, v)]
  | (k', v') :: rest, k, v => if k' = k then (k', v) :: rest else (k', v') :: mapSet rest k v

/-- The index expression `m[k]` (`nil` for a missing key and for the nil map). -/
def mapGet : List (Bytes × GoValue) → Bytes → GoValue
  | [], _ => GoValue.nil
  | (k', v') :: rest, k => if k' = k then v' else mapGet rest k

/-- The value of a sequence of decimal digits. -/
def digitsValue (ds : Bytes) : Nat := ds.foldl (fun a c => a * 10 + (c.val - 48)) 0

/-- The exponent of a numeric literal: the text after `e`/`E`, or nothing. -/
def exponentValue : Bytes → Int
  | [] => 0
  | c :: cs =>
    if c.val = 45 then - (digitsValue cs : Int)
    else if c.val = 43 then (digitsValue cs : Int)
    else (digitsValue (c :: cs) : Int)

/-- The least magnitude that does not round to a finite `float64`: the largest
finite value plus half a unit in the last place, `2 ^ 1024 - 2 ^ 970`. -/
def float64Limit : Nat :=
  179769313486231580793728971405303415079934132710037826936173778980444968292764750946649017977587207096330286416692887910946555547851940402630657488671505820681908902000708383676273854845817711531764475730270069855571366959622842914819860834936475292719074168444365510704342711559699508093042880177904174497792

/-- Powers of ten. -/
def pow10 : Nat → Nat
  | 0 => 1
  | n + 1 => 10 * pow10 n

/-- Whether `strconv.ParseFloat(lit, 64)` reports `ErrRange` for a JSON numeric
literal, by its documented contract: the exact value of the literal is at least
half a unit in the last place beyond the largest finite `float64`. -/
def float64Overflows (lit : Bytes) : Bool :=
  let body := lit.dropWhile (fun c => c.val = 45)
  let intDigits := body.takeWhile isDigit
  let afterInt := body.dropWhile isDigit
  let fracDigits := (afterInt.dropWhile (fun c => c.val = 46)).takeWhile isDigit
  let afterFrac := (afterInt.dropWhile (fun c => c.val = 46)).dropWhile isDigit
  let mant := digitsValue (intDigits ++ fracDigits)
  let exp : Int := exponentValue afterFrac.tail - fracDigits.length
  if 0 ≤ exp then decide (float64Limit ≤ mant * pow10 exp.toNat)
  else decide (float64Limit * pow10 (-exp).toNat ≤ mant)

/-- `decodeState.saveError`: only the first error is kept. -/
def saveError (saved new : Option JsonError) : Option JsonError :=
  match saved with
  | some e => some e
  | none => new

/-- `decodeState.valueInterface` / `literalStore` into an `interface{}`: the Go
value of a document and the first conversion error.  The only conversion
that can fail is that of a number outside the range of `float64`; the value
stored is then `nil`.  `field` is the struct field being decoded. -/
def valueInterface (field : Bytes) : JSON → GoValue × Option JsonError
  | JSON.null => (GoValue.nil, none)
  | JSON.bool b => (GoValue.bool b, none)
  | JSON.num lit =>
    if float64Overflows lit then
      (GoValue.nil, some (JsonError.unmarshalType (ascii "number " ++ lit) field))
    else (GoValue.float64 lit, none)
  | JSON.str s => (GoValue.string s, none)
  | JSON.arr items => (GoValue.slice (arrayInterface field items).1, (arrayInterface field items).2)
  | JSON.obj members =>
    (GoValue.map ((objectInterface field members).1.foldl (fun m e => mapSet m e.1 e.2) []),
     (objectInterface field members).2)
where
  /-- The elements of `arrayInterface`, in order. -/
  arrayInterface (field : Bytes) : List JSON → List GoValue × Option JsonError
    | [] => ([], none)
    | x :: xs =>
      ((valueInterface field x).1 :: (arrayInterface field xs).1,
       saveError (valueInterface field x).2 (arrayInterface field xs).2)
  /-- The assignments of `objectInterface`, in order. -/
  objectInterface (field : Bytes) : List (Bytes × JSON) → List (Bytes × GoValue) × Option JsonError
    | [] => ([], none)
    | (k, v) :: ms =>
      ((k, (valueInterface field v).1) :: (objectInterface field ms).1,
       saveError (valueInterface field v).2 (objectInterface field ms).2)

/-- The `Value` text of an `UnmarshalTypeError` for a document that cannot be
stored in the destination. -/
def kindName : JSON → Bytes
  | JSON.null => ascii "null"
  | JSON.bool _ => ascii "bool"
  | JSON.num _ => ascii "number"
  | JSON.str _ => ascii "string"
  | JSON.arr _ => ascii "array"
  | JSON.obj _ => ascii "object"

/-- Decoding a document into a destination of type `string`: a string is
stored, `null` leaves the destination as it is, anything else is a type error
that leaves the destination as it is. -/
def decodeString (field : Bytes) (cur : Bytes) : JSON → Bytes × Option JsonError
  | JSON.str s => (s, none)
  | JSON.null => (cur, none)
  | v => (cur, some (JsonError.unmarshalType (kindName v) field))

/-- Decoding a document into a destination of type `map[string]interface{}`:
an object is stored member by member into the existing map (allocated when
nil), `null` sets the nil map, anything else is a type error that leaves the
destination as it is. -/
def decodeMap (field : Bytes) (cur : GoMap) : JSON → GoMap × Option JsonError
  | JSON.obj members =>
    (some ((valueInterface.objectInterface field members).1.foldl (fun m e => mapSet m e.1 e.2) (cur.getD [])),
     (valueInterface.objectInterface field members).2)
  | JSON.null => (none, none)
  | v => (cur, some (JsonError.unmarshalType (kindName v) field))

/-- The key folding of `encoding/json` for struct fields (`foldName`): ASCII
letters are compared without case, and the two non-ASCII runes that fold to an
ASCII letter, U+017F (long s, `C5 BF`) and U+212A (Kelvin sign, `E2 84 AA`),
count as `S` and `K`.  `skip` is the number of bytes of the head that belong
to a rune already folded. -/
def foldLoop : Nat → Bytes → Bytes
  | _, [] => []
  | k + 1, _ :: cs => foldLoop k cs
  | 0, c :: cs =>
    if 97 ≤ c.val ∧ c.val ≤ 122 then Fin.ofNat (c.val - 32) :: foldLoop 0 cs
    else if c.val = 197 ∧ cs.take 1 = [191] then (83 : Byte) :: foldLoop 1 cs
    else if c.val = 226 ∧ cs.take 2 = [132, 170] then (75 : Byte) :: foldLoop 2 cs
    else c :: foldLoop 0 cs

def foldName (name : Bytes) : Bytes := foldLoop 0 name

/-- Whether the object key `key` selects the struct field with JSON name `name`. -/
def fieldMatches (key : Bytes) (name : String) : Bool := foldName key = foldName (ascii name)

/-! ## The client (`qrng/client.go`) -/

/-- The behaviour of the standard library that the client depends on and that
is left open here: which URL strings `url.Parse` rejects inside
`http.NewRequest` (with the text of the error), and the text `Error()` returns
for the errors of `encoding/json`. -/
structure Runtime where
  urlParseError : Bytes → Option Bytes
  jsonErrorText : JsonError → Bytes

/-- The text `Error()` returns for a standard-library error. -/
def Cause.text (rt : Runtime) : Cause → Bytes
  | Cause.lib t => t
  | Cause.json e => rt.jsonErrorText e
  | Cause.eof => ascii "EOF"
  | Cause.unexpectedEOF => ascii "unexpected EOF"

/-- A Go `error` built by `fmt.Errorf`: its message, and the error it wraps
when the format has a `%w` verb. -/
structure GoError where
  msg : Bytes
  unwrap : Option Cause
deriving DecidableEq

/-- `fmt.Errorf(pre + "%w", err)`. -/
def errorfW (rt : Runtime) (pre : String) (err : Cause) : GoError := ⟨ascii pre ++ err.text rt, some err⟩

/-- `fmt.Errorf` with a format without `%w`; `msg` is the formatted text. -/
def errorf (msg : Bytes) : GoError := ⟨msg, none⟩

/-- An `*http.Response`: status code and body reader. -/
structure Response where
  StatusCode : Int
  Body : Body
deriving DecidableEq

/-- `http.NewRequest(method, url, nil)` for a valid method: it fails exactly
when `url.Parse` rejects the URL; the new request has no headers. -/
def newRequest (rt : Runtime) (method url : Bytes) : Except Cause Request :=
  match rt.urlParseError url with
  | some e => Except.error (Cause.lib e)
  | none => Except.ok ⟨method, url, []⟩

/-- Client is the QRNG API client.  `HTTPClient` is `c.HTTPClient.Do`: the
response to a request, or the text of the transport error. -/
structure Client where
  APIKey : Bytes
  BaseURL : Bytes
  HTTPClient : Request → Except Bytes Response

/-- EntropyResult represents the result of entropy generation. -/
structure EntropyResult where
  Data : Bytes
  ProofID : Bytes
  Signature : Bytes
  PublicKey : Bytes
  SignatureType : Bytes
  Metadata : GoMap

/-- HealthStatus represents system health. -/
structure HealthStatus where
  Status : Bytes
  Metrics : GoMap
  Timestamp : Bytes

/-- GenerateOptions options for Generate. -/
structure GenerateOptions where
  Bytes : Int
  Format : List Byte
  Method : List Byte
  SignatureType : List Byte
deriving DecidableEq

/-- The zero value `var result EntropyResult`. -/
def EntropyResult.zero : EntropyResult := ⟨[], [], [], [], [], none⟩

/-- The zero value `var health HealthStatus`. -/
def HealthStatus.zero : HealthStatus := ⟨[], none, []⟩

/-- One member of a JSON object decoded into an `EntropyResult`: the member is
stored in the field whose `json` tag its key selects; members that select no
field are skipped. -/
def EntropyResult.setMember (acc : EntropyResult × Option JsonError) (m : Bytes × JSON) :
    EntropyResult × Option JsonError :=
  if fieldMatches m.1 "data" then
    ({ acc.1 with Data := (decodeString (ascii "data") acc.1.Data m.2).1 },
     saveError acc.2 (decodeString (ascii "data") acc.1.Data m.2).2)
  else if fieldMatches m.1 "proofId" then
    ({ acc.1 with ProofID := (decodeString (ascii "proofId") acc.1.ProofID m.2).1 },
     saveError acc.2 (decodeString (ascii "proofId") acc.1.ProofID m.2).2)
  else if fieldMatches m.1 "signature" then
    ({ acc.1 with Signature := (decodeString (ascii "signature") acc.1.Signature m.2).1 },
     saveError acc.2 (decodeString (ascii "signature") acc.1.Signature m.2).2)
  else if fieldMatches m.1 "publicKey" then
    ({ acc.1 with PublicKey := (decodeString (ascii "publicKey") acc.1.PublicKey m.2).1 },
     saveError acc.2 (decodeString (ascii "publicKey") acc.1.PublicKey m.2).2)
  else if fieldMatches m.1 "signatureType" then
    ({ acc.1 with SignatureType := (decodeString (ascii "signatureType") acc.1.SignatureType m.2).1 },
     saveError acc.2 (decodeString (ascii "signatureType") acc.1.SignatureType m.2).2)
  else if fieldMatches m.1 "metadata" then
    ({ acc.1 with Metadata := (decodeMap (ascii "metadata") acc.1.Metadata m.2).1 },
     saveError acc.2 (decodeMap (ascii "metadata") acc.1.Metadata m.2).2)
  else acc

/-- Decoding a document into `var result EntropyResult`: an object is stored
member by member, `null` leaves the zero value, anything else is a type error. -/
def decodeEntropyResult : JSON → EntropyResult × Option JsonError
  | JSON.obj members => members.foldl EntropyResult.setMember (EntropyResult.zero, none)
  | JSON.null => (EntropyResult.zero, none)
  | v => (EntropyResult.zero, some (JsonError.unmarshalType (kindName v) []))

/-- One member of a JSON object decoded into a `HealthStatus`. -/
def HealthStatus.setMember (acc : HealthStatus × Option JsonError) (m : Bytes × JSON) :
    HealthStatus × Option JsonError :=
  if fieldMatches m.1 "status" then
    ({ acc.1 with Status := (decodeString (ascii "status") acc.1.Status m.2).1 },
     saveError acc.2 (decodeString (ascii "status") acc.1.Status m.2).2)
  else if fieldMatches m.1 "metrics" then
    ({ acc.1 with Metrics := (decodeMap (ascii "metrics") acc.1.Metrics m.2).1 },
     saveError acc.2 (decodeMap (ascii "metrics") acc.1.Metrics m.2).2)
  else if fieldMatches m.1 "timestamp" then
    ({ acc.1 with Timestamp := (decodeString (ascii "timestamp") acc.1.Timestamp m.2).1 },
     saveError acc.2 (decodeString (ascii "timestamp") acc.1.Timestamp m.2).2)
  else acc

/-- Decoding a document into `var health HealthStatus`. -/
def decodeHealthStatus : JSON → HealthStatus × Option JsonError
  | JSON.obj members => members.foldl HealthStatus.setMember (HealthStatus.zero, none)
  | JSON.null => (HealthStatus.zero, none)
  | v => (HealthStatus.zero, some (JsonError.unmarshalType (kindName v) []))

/-- `json.Unmarshal(body, &errResp)` with `var errResp map[string]interface{}`:
the map afterwards and the error returned.  Nothing is stored when the input
is not valid JSON. -/
def unmarshalMap (body : Bytes) : GoMap × Option JsonError :=
  match parseDocument body with
  | Except.error e => (none, some e)
  | Except.ok doc => decodeMap [] none doc

/-- `json.Unmarshal(body, &result)` with `var result EntropyResult`. -/
def unmarshalEntropyResult (body : Bytes) : EntropyResult × Option JsonError :=
  match parseDocument body with
  | Except.error e => (EntropyResult.zero, some e)
  | Except.ok doc => decodeEntropyResult doc

/-- `json.NewDecoder(resp.Body).Decode(&health)` with `var health HealthStatus`. -/
def decodeHealthBody (body : Body) : HealthStatus × Option Cause :=
  match readValue body with
  | Except.error e => (HealthStatus.zero, some e)
  | Except.ok doc => ((decodeHealthStatus doc).1, (decodeHealthStatus doc).2.map Cause.json)

/-- Lines 57–62 of `Generate`: the options used when `opts` is nil. -/
def defaultOptions : GenerateOptions := ⟨32, ascii "hex", [], []⟩

/-- Lines 64–72 of `Generate`: the query parameters. -/
def generateParams (opts : GenerateOptions) : Values :=
  let params : Values := []
  let params := Values.add params (ascii "bytes") (fmtInt opts.Bytes)
  let params := Values.add params (ascii "format") opts.Format
  let params := if opts.Method ≠ [] then Values.add params (ascii "method") opts.Method else params
  let params :=
    if opts.SignatureType ≠ [] then Values.add params (ascii "signatureType") opts.SignatureType else params
  params

/-- The query string of `Generate`, `params.Encode()`. -/
def generateQuery (opts : GenerateOptions) : Bytes := Values.encode (generateParams opts)

/-- Lines 57–81 of `Generate`: the request handed to the HTTP client, or the
error of `http.NewRequest`. -/
def generateRequest (rt : Runtime) (c : Client) (opts : Option GenerateOptions) : Except Cause Request :=
  let opts := match opts with
    | none => defaultOptions
    | some o => o
  let reqURL := c.BaseURL ++ ascii "/api/random?" ++ generateQuery opts
  match newRequest rt (ascii "GET") reqURL with
  | Except.error err => Except.error err
  | Except.ok req => Except.ok { req with header := Header.set req.header (ascii "X-API-Key") c.APIKey }

/-- Lines 89–108 of `Generate`: what is returned for a response. -/
def generateResponse (rt : Runtime) (resp : Response) : Option EntropyResult × Option GoError :=
  match readAll resp.Body with
  | (_, some err) => (none, some (errorfW rt "failed to read response: " err))
  | (body, none) =>
    if resp.StatusCode ≠ 200 then
      let errResp := (unmarshalMap body).1
      match mapGet (errResp.getD []) (ascii "error") with
      | GoValue.string msg => (none, some (errorf (ascii "API error: " ++ msg)))
      | _ => (none, some (errorf (ascii "HTTP " ++ fmtInt resp.StatusCode ++ ascii ": " ++ body)))
    else
      match unmarshalEntropyResult body with
      | (_, some err) => (none, some (errorfW rt "failed to parse response: " (Cause.json err)))
      | (result, none) => (some result, none)

/-- Generate generates random entropy.  The two components are the two return
values of the Go function, `none` standing for `nil`. -/
def Generate (rt : Runtime) (c : Client) (opts : Option GenerateOptions) :
    Option EntropyResult × Option GoError :=
  match generateRequest rt c opts with
  | Except.error err => (none, some (errorfW rt "failed to create request: " err))
  | Except.ok req =>
    match c.HTTPClient req with
    | Except.error err => (none, some (errorfW rt "request failed: " (Cause.lib err)))
    | Except.ok resp => generateResponse rt resp

/-- Lines 113–120 of `Health`: the request handed to the HTTP client. -/
def healthRequest (rt : Runtime) (c : Client) : Except Cause Request :=
  let reqURL := c.BaseURL ++ ascii "/api/health"
  match newRequest rt (ascii "GET") reqURL with
  | Except.error err => Except.error err
  | Except.ok req => Except.ok { req with header := Header.set req.header (ascii "X-API-Key") c.APIKey }

/-- Lines 128–133 of `Health`: what is returned for a response. -/
def healthResponse (rt : Runtime) (resp : Response) : Option HealthStatus × Option GoError :=
  match decodeHealthBody resp.Body with
  | (_, some err) => (none, some (errorfW rt "failed to parse response: " err))
  | (health, none) => (some health, none)

/-- Health gets system health status. -/
def Health (rt : Runtime) (c : Client) : Option HealthStatus × Option GoError :=
  match healthRequest rt c with
  | Except.error err => (none, some (errorfW rt "failed to create request: " err))
  | Except.ok req =>
    match c.HTTPClient req with
    | Except.error err => (none, some (errorfW rt "request failed: " (Cause.lib err)))
    | Except.ok resp => healthResponse rt resp

/-! ## Definitions used to state the theorems -/

/-- The member of a JSON object that a key selects once the object has been
stored in a Go map: the last member with that key. -/
def lookupMember : List (Bytes × JSON) → Bytes → Option JSON
  | [], _ => none
  | (k', v) :: rest, k =>
    match lookupMember rest k with
    | some w => some w
    | none => if k' = k then some v else none

/-- The service message `Generate` finds in the body of an error response: the
body is a JSON object whose member `error` is a string. -/
def apiErrorMessage (body : Bytes) : Option Bytes :=
  match parseDocument body with
  | Except.ok (JSON.obj members) =>
    (match lookupMember members (ascii "error") with
     | some (JSON.str m) => some m
     | _ => none)
  | _ => none

/-- A runtime for concrete runs: `url.Parse` accepts every URL, and the text
of every `encoding/json` error is `json error`. -/
def stubRuntime : Runtime := ⟨fun _ => none, fun _ => ascii "json error"⟩

/-- A client for concrete runs, as `NewClient` builds it, with a transport
that answers every request with the given response. -/
def stubClient (apiKey : Bytes) (resp : Response) : Client :=
  ⟨apiKey, ascii "https://qrngapi.com", fun _ => Except.ok resp⟩

/-- The parameter list the specification prescribes for `Generate`, in order:
`bytes` (decimal), `format`, then `method` and `signatureType` when non-empty. -/
def specParams (o : GenerateOptions) : List (Bytes × Bytes) :=
  [(ascii "bytes", fmtInt o.Bytes), (ascii "format", o.Format)]
    ++ (if o.Method ≠ [] then [(ascii "method", o.Method)] else [])
    ++ (if o.SignatureType ≠ [] then [(ascii "signatureType", o.SignatureType)] else [])

/-- The URL-query encoding of a parameter list: `key=value` pairs, percent-encoded,
joined by `&` in the order of the list. -/
def specEncode : List (Bytes × Bytes) → Bytes
  | [] => []
  | [(k, v)] => queryEscape k ++ (61 : Byte) :: queryEscape v
  | (k, v) :: rest => queryEscape k ++ (61 : Byte) :: queryEscape v ++ (38 : Byte) :: specEncode rest

/-- The five failure kinds of the specification's error taxonomy. -/
inductive ErrorKind where
  | requestBuild
  | transport
  | bodyRead
  | api
  | decode
deriving DecidableEq

/-- The failure that occurs in a run of `Generate`, read off the behaviour of
the runtime and of the transport: which step of the call fails first. -/
def generateErrorKind (rt : Runtime) (c : Client) (opts : Option GenerateOptions) : Option ErrorKind :=
  match generateRequest rt c opts with
  | Except.error _ => some ErrorKind.requestBuild
  | Except.ok req =>
    match c.HTTPClient req with
    | Except.error _ => some ErrorKind.transport
    | Except.ok resp =>
      match resp.Body.err with
      | some _ => some ErrorKind.bodyRead
      | none =>
        if resp.StatusCode ≠ 200 then some ErrorKind.api
        else
          match (unmarshalEntropyResult resp.Body.data).2 with
          | some _ => some ErrorKind.decode
          | none => none

/-- What a caller can tell from the message of an error alone: the failure kind
whose message format the text starts with. -/
def errorKindOfMessage (msg : Bytes) : Option ErrorKind :=
  if (ascii "failed to create request: ").isPrefixOf msg then some ErrorKind.requestBuild
  else if (ascii "request failed: ").isPrefixOf msg then some ErrorKind.transport
  else if (ascii "failed to read response: ").isPrefixOf msg then some ErrorKind.bodyRead
  else if (ascii "API error: ").isPrefixOf msg then some ErrorKind.api
  else if (ascii "HTTP ").isPrefixOf msg then some ErrorKind.api
  else if (ascii "failed to parse response: ").isPrefixOf msg then some ErrorKind.decode
  else none

/-- Whether every number inside a document is within the range of `float64`. -/
def numbersFit : JSON → Bool
  | JSON.num lit => !float64Overflows lit
  | JSON.arr items => itemsFit items
  | JSON.obj members => membersFit members
  | _ => true
where
  /-- Every number inside the elements of an array is within range. -/
  itemsFit : List JSON → Bool
    | [] => true
    | x :: xs => numbersFit x && itemsFit xs
  /-- Every number inside the members of an object is within range. -/
  membersFit : List (Bytes × JSON) → Bool
    | [] => true
    | (_, v) :: ms => numbersFit v && membersFit ms

/-- Whether a member of the response object fits the shape of `EntropyResult`:
a member for one of the five string fields is a string or `null`, a member
for `metadata` is `null` or an object with every number in the range of
`float64`, and any other member is accepted. -/
def memberFits (m : Bytes × JSON) : Bool :=
  if fieldMatches m.1 "data" || fieldMatches m.1 "proofId" || fieldMatches m.1 "signature"
      || fieldMatches m.1 "publicKey" || fieldMatches m.1 "signatureType" then
    (match m.2 with
     | JSON.str _ => true
     | JSON.null => true
     | _ => false)
  else if fieldMatches m.1 "metadata" then
    (match m.2 with
     | JSON.null => true
     | JSON.obj members => numbersFit.membersFit members
     | _ => false)
  else true

/-- The value the body gives to a string field: the last string among the
members that select the field (`null` members leave it unchanged), empty when
there is none. -/
def stringField (members : List (Bytes × JSON)) (name : String) : Bytes :=
  (members.filter (fun m => fieldMatches m.1 name)).foldl
    (fun cur m => match m.2 with
      | JSON.str s => s
      | _ => cur) []

/-- The value the body gives to a map field: the Go map of the object members
that select the field (`null` resets it to the nil map), nil when there is none. -/
def mapField (members : List (Bytes × JSON)) (name : String) : GoMap :=
  (members.filter (fun m => fieldMatches m.1 name)).foldl
    (fun cur m => match m.2 with
      | JSON.obj ms =>
        some ((valueInterface.objectInterface (ascii name) ms).1.foldl (fun g e => mapSet g e.1 e.2) (cur.getD []))
      | JSON.null => none
      | _ => cur) none

/-! ## Lemmas on the query string -/

theorem encodeKey_single (k buf v : Bytes) :
    encodeKey k buf [v] = (if buf = [] then [] else buf ++ [(38 : Byte)]) ++ k ++ [(61 : Byte)] ++ queryEscape v := by
  cases buf <;> simp [encodeKey]

/-- The query string of `Generate` written out. -/
theorem generateQuery_eq (o : GenerateOptions) :
    generateQuery o =
      ascii "bytes=" ++ queryEscape (fmtInt o.Bytes) ++ ascii "&format=" ++ queryEscape o.Format
        ++ (if o.Method ≠ [] then ascii "&method=" ++ queryEscape o.Method else [])
        ++ (if o.SignatureType ≠ [] then ascii "&signatureType=" ++ queryEscape o.SignatureType else []) := by
  have n1 : ¬ ascii "bytes" = ascii "format" := by decide
  have n2 : ¬ ascii "bytes" = ascii "method" := by decide
  have n3 : ¬ ascii "format" = ascii "method" := by decide
  have n4 : ¬ ascii "bytes" = ascii "signatureType" := by decide
  have n5 : ¬ ascii "format" = ascii "signatureType" := by decide
  have n6 : ¬ ascii "method" = ascii "signatureType" := by decide
  have l1 : bytesLe (ascii "method") (ascii "signatureType") = true := by decide
  have l2 : bytesLe (ascii "format") (ascii "method") = true := by decide
  have l3 : bytesLe (ascii "format") (ascii "signatureType") = true := by decide
  have l4 : bytesLe (ascii "bytes") (ascii "format") = true := by decide
  have q1 : queryEscape (ascii "bytes") = ascii "bytes" := by decide
  have q2 : queryEscape (ascii "format") = ascii "format" := by decide
  have q3 : queryEscape (ascii "method") = ascii "method" := by decide
  have q4 : queryEscape (ascii "signatureType") = ascii "signatureType" := by decide
  have z1 : ¬ ascii "bytes" = [] := by decide
  have a1 : ascii "bytes=" = ascii "bytes" ++ [(61 : Byte)] := by decide
  have a2 : ascii "&format=" = (38 : Byte) :: ascii "format" ++ [(61 : Byte)] := by decide
  have a3 : ascii "&method=" = (38 : Byte) :: ascii "method" ++ [(61 : Byte)] := by decide
  have a4 : ascii "&signatureType=" = (38 : Byte) :: ascii "signatureType" ++ [(61 : Byte)] := by decide
  unfold generateQuery generateParams
  rw [a1, a2, a3, a4]
  by_cases hm : o.Method = [] <;> by_cases hs : o.SignatureType = [] <;>
    simp [hm, hs, Values.add, Values.encode, sortByKey, insertByKey, encodeLoop, encodeKey_single,
      n1, n2, n3, n4, n5, n6, l1, l2, l3, l4, q1, q2, q3, q4, z1]

theorem defaultQuery_eq : generateQuery defaultOptions = ascii "bytes=32&format=hex" := by decide

theorem canonicalKey_eq : canonicalMIMEHeaderKey (ascii "X-API-Key") = ascii "X-Api-Key" := by decide

/-- The request `Generate` builds, written out. -/
theorem generateRequest_eq (rt : Runtime) (c : Client) (opts : Option GenerateOptions) :
    generateRequest rt c opts =
      (match rt.urlParseError (c.BaseURL ++ ascii "/api/random?" ++ generateQuery (opts.getD defaultOptions)) with
       | some e => Except.error (Cause.lib e)
       | none =>
         Except.ok ⟨ascii "GET", c.BaseURL ++ ascii "/api/random?" ++ generateQuery (opts.getD defaultOptions),
           [(ascii "X-Api-Key", [c.APIKey])]⟩) := by
  cases opts with
  | none =>
    simp only [generateRequest, newRequest, Option.getD]
    cases rt.urlParseError (c.BaseURL ++ ascii "/api/random?" ++ generateQuery defaultOptions) <;>
      simp [Header.set, canonicalKey_eq]
  | some o =>
    simp only [generateRequest, newRequest, Option.getD]
    cases rt.urlParseError (c.BaseURL ++ ascii "/api/random?" ++ generateQuery o) <;>
      simp [Header.set, canonicalKey_eq]

/-! ## Lemmas on decoding -/

theorem mapGet_mapSet (m : List (Bytes × GoValue)) (k k' : Bytes) (v : GoValue) :
    mapGet (mapSet m k v) k' = if k = k' then v else mapGet m k' := by
  induction m with
  | nil => simp [mapSet, mapGet]
  | cons e rest ih =>
    obtain ⟨k0, v0⟩ := e
    by_cases h0 : k0 = k
    · subst h0
      by_cases h1 : k0 = k' <;> simp [mapSet, mapGet, h1]
    · by_cases h1 : k0 = k'
      · subst h1
        have : ¬ k = k0 := fun h => h0 h.symm
        simp [mapSet, mapGet, h0, this]
      · simp [mapSet, mapGet, h0, h1, ih]

theorem mapGet_objectInterface (field : Bytes) (members : List (Bytes × JSON)) (k : Bytes) :
    ∀ init : List (Bytes × GoValue),
      mapGet ((valueInterface.objectInterface field members).1.foldl (fun m e => mapSet m e.1 e.2) init) k =
        (match lookupMember members k with
         | some v => (valueInterface field v).1
         | none => mapGet init k) := by
  induction members with
  | nil => intro init; simp [valueInterface.objectInterface, lookupMember]
  | cons e rest ih =>
    intro init
    obtain ⟨k0, v0⟩ := e
    simp only [valueInterface.objectInterface, List.foldl_cons, lookupMember]
    rw [ih]
    cases h : lookupMember rest k with
    | some w => simp
    | none =>
      by_cases h0 : k0 = k <;> simp [mapGet_mapSet, h0]

theorem valueInterface_string (field : Bytes) (v : JSON) (s : Bytes) :
    (valueInterface field v).1 = GoValue.string s ↔ v = JSON.str s := by
  cases v <;> simp [valueInterface]
  split <;> simp

theorem errResp_error (body : Bytes) :
    mapGet ((unmarshalMap body).1.getD []) (ascii "error") =
      (match apiErrorMessage body with
       | some m => GoValue.string m
       | none => mapGet ((unmarshalMap body).1.getD []) (ascii "error")) ∧
    (apiErrorMessage body = none →
      ∀ m, mapGet ((unmarshalMap body).1.getD []) (ascii "error") ≠ GoValue.string m) := by
  unfold apiErrorMessage unmarshalMap
  cases hp : parseDocument body with
  | error e => simp [mapGet]
  | ok doc =>
    cases doc with
    | obj members =>
      simp only [decodeMap, Option.getD]
      rw [mapGet_objectInterface]
      cases hl : lookupMember members (ascii "error") with
      | none => simp [mapGet]
      | some v =>
        cases v <;> simp [valueInterface]
        split <;> simp
    | _ => simp [decodeMap, mapGet]

/-- What `Generate` returns for a response that was read in full and whose
status code is not 200. -/
theorem generateResponse_error_status (rt : Runtime) (resp : Response) (body : Bytes)
    (hb : resp.Body = ⟨body, none⟩) (hs : resp.StatusCode ≠ 200) :
    generateResponse rt resp =
      (match apiErrorMessage body with
       | some m => (none, some (errorf (ascii "API error: " ++ m)))
       | none => (none, some (errorf (ascii "HTTP " ++ fmtInt resp.StatusCode ++ ascii ": " ++ body)))) := by
  have h1 := (errResp_error body).1
  have h2 := (errResp_error body).2
  simp only [generateResponse, readAll, hb, Option.map, hs, ite_true, ne_eq, not_false_eq_true]
  cases hm : apiErrorMessage body with
  | some m =>
    rw [hm] at h1
    simp only at h1
    simp only [h1]
  | none =>
    have h3 := h2 hm
    split
    · rename_i msg heq
      exact absurd heq (h3 msg)
    · rfl
theorem upperhex_roundtrip : ∀ c : Byte,
    ishex (upperhex (c.val / 16)) = true ∧ ishex (upperhex (c.val % 16)) = true ∧
      (Fin.ofNat (unhex (upperhex (c.val / 16)) * 16 + unhex (upperhex (c.val % 16))) : Byte) = c := by
  decide

theorem upperhex_plain : ∀ n : Fin 16,
    (upperhex n.val).val ≠ 38 ∧ (upperhex n.val).val ≠ 61 ∧ (upperhex n.val).val ≠ 59 := by
  decide

theorem unreserved_plain : ∀ c : Byte, shouldEscape c = false →
    c.val ≠ 37 ∧ c.val ≠ 43 ∧ c.val ≠ 38 ∧ c.val ≠ 61 ∧ c.val ≠ 59 := by
  decide

theorem queryEscape_cons (c : Byte) (cs : Bytes) :
    queryEscape (c :: cs) =
      (if c.val = 32 then [(43 : Byte)]
       else if shouldEscape c = true then [(37 : Byte), upperhex (c.val / 16), upperhex (c.val % 16)]
       else [c]) ++ queryEscape cs := by
  by_cases h32 : c.val = 32
  · simp [queryEscape, h32]
  · by_cases hesc : shouldEscape c = true <;> simp [queryEscape, h32, hesc]

theorem queryUnescape_plus (r : Bytes) :
    queryUnescape ((43 : Byte) :: r) = (queryUnescape r).map (fun t => (32 : Byte) :: t) := by
  conv => lhs; unfold queryUnescape
  have v43 : ((43 : Byte) : Nat) = 43 := rfl
  simp [v43]

theorem queryUnescape_percent (h1 h2 : Byte) (r : Bytes) :
    queryUnescape ((37 : Byte) :: h1 :: h2 :: r) =
      (if (ishex h1 && ishex h2) = true then
        (queryUnescape r).map (fun t => (Fin.ofNat (unhex h1 * 16 + unhex h2) : Byte) :: t)
       else none) := by
  conv => lhs; unfold queryUnescape
  have v37 : ((37 : Byte) : Nat) = 37 := rfl
  simp only [v37, ite_true]

theorem queryUnescape_other (c : Byte) (r : Bytes) (h37 : c.val ≠ 37) (h43 : c.val ≠ 43) :
    queryUnescape (c :: r) = (queryUnescape r).map (fun t => c :: t) := by
  conv => lhs; unfold queryUnescape
  simp [h37, h43]

/-- `QueryUnescape` undoes `QueryEscape` on every string. -/
theorem queryUnescape_queryEscape (s : Bytes) : queryUnescape (queryEscape s) = some s := by
  induction s with
  | nil => rfl
  | cons c cs ih =>
    rw [queryEscape_cons]
    by_cases h32 : c.val = 32
    · have hc : c = 32 := Fin.ext h32
      rw [if_pos h32, List.singleton_append, queryUnescape_plus, ih, hc]
      rfl
    · by_cases hesc : shouldEscape c = true
      · obtain ⟨h1, h2, h3⟩ := upperhex_roundtrip c
        rw [if_neg h32, if_pos hesc]
        simp only [List.cons_append, List.nil_append]
        rw [queryUnescape_percent, ih, h1, h2, h3]
        rfl
      · have hesc' : shouldEscape c = false := by simpa using hesc
        obtain ⟨h37, h43, -⟩ := unreserved_plain c hesc'
        rw [if_neg h32, if_neg hesc, List.singleton_append, queryUnescape_other c _ h37 h43, ih]
        rfl

/-- The output of `QueryEscape` has no `&`, `=` or `;`. -/
theorem queryEscape_plain (s : Bytes) :
    ∀ c ∈ queryEscape s, c.val ≠ 38 ∧ c.val ≠ 61 ∧ c.val ≠ 59 := by
  induction s with
  | nil => simp [queryEscape]
  | cons c cs ih =>
    have hhi := upperhex_plain ⟨c.val / 16, by omega⟩
    have hlo := upperhex_plain ⟨c.val % 16, by omega⟩
    intro x hx
    rw [queryEscape_cons, List.mem_append] at hx
    rcases hx with hx | hx
    · by_cases h32 : c.val = 32
      · rw [if_pos h32, List.mem_singleton] at hx
        subst hx
        decide
      · by_cases hesc : shouldEscape c = true
        · rw [if_neg h32, if_pos hesc] at hx
          simp only [List.mem_cons, List.mem_singleton, List.not_mem_nil, or_false] at hx
          rcases hx with rfl | rfl | rfl
          · decide
          · exact hhi
          · exact hlo
        · have hesc' : shouldEscape c = false := by simpa using hesc
          obtain ⟨-, -, h1, h2, h3⟩ := unreserved_plain c hesc'
          rw [if_neg h32, if_neg hesc, List.mem_singleton] at hx
          subst hx
          exact ⟨h1, h2, h3⟩
    · exact ih x hx
theorem splitAmp_plain (a : Bytes) (h : ∀ c ∈ a, c.val ≠ 38) : splitAmp a = [a] := by
  induction a with
  | nil => rfl
  | cons c cs ih =>
    have hc : c.val ≠ 38 := h c (List.mem_cons_self _ _)
    have hcs := ih (fun x hx => h x (List.mem_cons_of_mem _ hx))
    simp [splitAmp, hc, hcs]

theorem splitAmp_append (a rest : Bytes) (h : ∀ c ∈ a, c.val ≠ 38) :
    splitAmp (a ++ (38 : Byte) :: rest) = a :: splitAmp rest := by
  induction a with
  | nil =>
    have v38 : ((38 : Byte) : Nat) = 38 := rfl
    simp [splitAmp, v38]
  | cons c cs ih =>
    have hc : c.val ≠ 38 := h c (List.mem_cons_self _ _)
    have hcs := ih (fun x hx => h x (List.mem_cons_of_mem _ hx))
    simp [splitAmp, hc, hcs]

theorem cut_append (k v : Bytes) (h : ∀ c ∈ k, c.val ≠ 61) :
    cut 61 (k ++ (61 : Byte) :: v) = (k, v) := by
  induction k with
  | nil => simp [cut]
  | cons c cs ih =>
    have hc : c ≠ 61 := fun e => h c (List.mem_cons_self _ _) (by rw [e]; rfl)
    have hcs := ih (fun x hx => h x (List.mem_cons_of_mem _ hx))
    simp [cut, hc, hcs]

/-- One `key=value` piece written by `Encode` is read back by `ParseQuery`. -/
theorem parsePiece_pair (acc : Values × Bool) (k v : Bytes)
    (hk : ∀ c ∈ k, c.val ≠ 61 ∧ c.val ≠ 59) (hu : queryUnescape k = some k) :
    parsePiece acc (k ++ (61 : Byte) :: queryEscape v) = (Values.add acc.1 k v, acc.2) := by
  have hsemi : ¬ (59 : Byte) ∈ k ++ (61 : Byte) :: queryEscape v := by
    intro hmem
    rw [List.mem_append, List.mem_cons] at hmem
    rcases hmem with hmem | hmem | hmem
    · exact (hk _ hmem).2 rfl
    · exact absurd hmem (by decide)
    · exact (queryEscape_plain v _ hmem).2.2 rfl
  have hne : ¬ k ++ (61 : Byte) :: queryEscape v = [] := by simp
  unfold parsePiece
  rw [if_neg hsemi, if_neg hne, cut_append k _ (fun c hc => (hk c hc).1)]
  simp [hu, queryUnescape_queryEscape]

/-- `ParseQuery` reads back the parameters of `Generate` from its query string. -/
theorem parseQuery_generateQuery (o : GenerateOptions) :
    parseQuery (generateQuery o) = (generateParams o, true) := by
  have k1 : ∀ c ∈ ascii "bytes", c.val ≠ 61 ∧ c.val ≠ 59 := by decide
  have k2 : ∀ c ∈ ascii "format", c.val ≠ 61 ∧ c.val ≠ 59 := by decide
  have k3 : ∀ c ∈ ascii "method", c.val ≠ 61 ∧ c.val ≠ 59 := by decide
  have k4 : ∀ c ∈ ascii "signatureType", c.val ≠ 61 ∧ c.val ≠ 59 := by decide
  have u1 : queryUnescape (ascii "bytes") = some (ascii "bytes") := by decide
  have u2 : queryUnescape (ascii "format") = some (ascii "format") := by decide
  have u3 : queryUnescape (ascii "method") = some (ascii "method") := by decide
  have u4 : queryUnescape (ascii "signatureType") = some (ascii "signatureType") := by decide
  have a1 : ascii "bytes=" = ascii "bytes" ++ [(61 : Byte)] := by decide
  have a2 : ascii "&format=" = (38 : Byte) :: ascii "format" ++ [(61 : Byte)] := by decide
  have a3 : ascii "&method=" = (38 : Byte) :: ascii "method" ++ [(61 : Byte)] := by decide
  have a4 : ascii "&signatureType=" = (38 : Byte) :: ascii "signatureType" ++ [(61 : Byte)] := by decide
  have amp : ∀ (k v : Bytes), (∀ c ∈ k, c.val ≠ 38) → ∀ c ∈ k ++ (61 : Byte) :: queryEscape v, c.val ≠ 38 := by
    intro k v hk c hc
    rw [List.mem_append, List.mem_cons] at hc
    rcases hc with hc | hc | hc
    · exact hk c hc
    · rw [hc]; decide
    · exact (queryEscape_plain v c hc).1
  have m1 : ∀ c ∈ ascii "bytes", c.val ≠ 38 := by decide
  have m2 : ∀ c ∈ ascii "format", c.val ≠ 38 := by decide
  have m3 : ∀ c ∈ ascii "method", c.val ≠ 38 := by decide
  have m4 : ∀ c ∈ ascii "signatureType", c.val ≠ 38 := by decide
  rw [generateQuery_eq, a1, a2, a3, a4]
  unfold parseQuery generateParams
  by_cases hm : o.Method = [] <;> by_cases hs : o.SignatureType = []
  · have e : ascii "bytes" ++ [61] ++ queryEscape (fmtInt o.Bytes) ++ ((38 : Byte) :: ascii "format" ++ [61])
          ++ queryEscape o.Format ++ (if o.Method ≠ [] then (38 : Byte) :: ascii "method" ++ [61] ++ queryEscape o.Method else [])
          ++ (if o.SignatureType ≠ [] then (38 : Byte) :: ascii "signatureType" ++ [61] ++ queryEscape o.SignatureType else [])
        = (ascii "bytes" ++ (61 : Byte) :: queryEscape (fmtInt o.Bytes)) ++ (38 : Byte) ::
            (ascii "format" ++ (61 : Byte) :: queryEscape o.Format) := by
      simp [hm, hs]
    rw [e, splitAmp_append _ _ (amp _ _ m1), splitAmp_plain _ (amp _ _ m2)]
    simp only [List.foldl, parsePiece_pair _ _ _ k1 u1, parsePiece_pair _ _ _ k2 u2]
    simp [hm, hs]
  · have e : ascii "bytes" ++ [61] ++ queryEscape (fmtInt o.Bytes) ++ ((38 : Byte) :: ascii "format" ++ [61])
          ++ queryEscape o.Format ++ (if o.Method ≠ [] then (38 : Byte) :: ascii "method" ++ [61] ++ queryEscape o.Method else [])
          ++ (if o.SignatureType ≠ [] then (38 : Byte) :: ascii "signatureType" ++ [61] ++ queryEscape o.SignatureType else [])
        = (ascii "bytes" ++ (61 : Byte) :: queryEscape (fmtInt o.Bytes)) ++ (38 : Byte) ::
            ((ascii "format" ++ (61 : Byte) :: queryEscape o.Format) ++ (38 : Byte) ::
              (ascii "signatureType" ++ (61 : Byte) :: queryEscape o.SignatureType)) := by
      simp [hm, hs]
    rw [e, splitAmp_append _ _ (amp _ _ m1), splitAmp_append _ _ (amp _ _ m2), splitAmp_plain _ (amp _ _ m4)]
    simp only [List.foldl, parsePiece_pair _ _ _ k1 u1, parsePiece_pair _ _ _ k2 u2,
      parsePiece_pair _ _ _ k4 u4]
    simp [hm, hs]
  · have e : ascii "bytes" ++ [61] ++ queryEscape (fmtInt o.Bytes) ++ ((38 : Byte) :: ascii "format" ++ [61])
          ++ queryEscape o.Format ++ (if o.Method ≠ [] then (38 : Byte) :: ascii "method" ++ [61] ++ queryEscape o.Method else [])
          ++ (if o.SignatureType ≠ [] then (38 : Byte) :: ascii "signatureType" ++ [61] ++ queryEscape o.SignatureType else [])
        = (ascii "bytes" ++ (61 : Byte) :: queryEscape (fmtInt o.Bytes)) ++ (38 : Byte) ::
            ((ascii "format" ++ (61 : Byte) :: queryEscape o.Format) ++ (38 : Byte) ::
              (ascii "method" ++ (61 : Byte) :: queryEscape o.Method)) := by
      simp [hm, hs]
    rw [e, splitAmp_append _ _ (amp _ _ m1), splitAmp_append _ _ (amp _ _ m2), splitAmp_plain _ (amp _ _ m3)]
    simp only [List.foldl, parsePiece_pair _ _ _ k1 u1, parsePiece_pair _ _ _ k2 u2,
      parsePiece_pair _ _ _ k3 u3]
    simp [hm, hs]
  · have e : ascii "bytes" ++ [61] ++ queryEscape (fmtInt o.Bytes) ++ ((38 : Byte) :: ascii "format" ++ [61])
          ++ queryEscape o.Format ++ (if o.Method ≠ [] then (38 : Byte) :: ascii "method" ++ [61] ++ queryEscape o.Method else [])
          ++ (if o.SignatureType ≠ [] then (38 : Byte) :: ascii "signatureType" ++ [61] ++ queryEscape o.SignatureType else [])
        = (ascii "bytes" ++ (61 : Byte) :: queryEscape (fmtInt o.Bytes)) ++ (38 : Byte) ::
            ((ascii "format" ++ (61 : Byte) :: queryEscape o.Format) ++ (38 : Byte) ::
              ((ascii "method" ++ (61 : Byte) :: queryEscape o.Method) ++ (38 : Byte) ::
                (ascii "signatureType" ++ (61 : Byte) :: queryEscape o.SignatureType))) := by
      simp [hm, hs]
    rw [e, splitAmp_append _ _ (amp _ _ m1), splitAmp_append _ _ (amp _ _ m2),
      splitAmp_append _ _ (amp _ _ m3), splitAmp_plain _ (amp _ _ m4)]
    simp only [List.foldl, parsePiece_pair _ _ _ k1 u1, parsePiece_pair _ _ _ k2 u2,
      parsePiece_pair _ _ _ k3 u3, parsePiece_pair _ _ _ k4 u4]
    simp [hm, hs]

theorem isPrefixOf_append (p t : Bytes) : p.isPrefixOf (p ++ t) = true := by
  simp

theorem errorKindOfMessage_requestBuild : ∀ t, errorKindOfMessage (ascii "failed to create request: " ++ t) = some ErrorKind.requestBuild := by
  intro t
  simp [errorKindOfMessage, isPrefixOf_append]

theorem errorKindOfMessage_transport : ∀ t, errorKindOfMessage (ascii "request failed: " ++ t) = some ErrorKind.transport := by
  intro t
  have e1 : (ascii "failed to create request: ").isPrefixOf (ascii "request failed: " ++ t) = false := by rfl
  simp only [errorKindOfMessage, isPrefixOf_append, e1]
  rfl

theorem errorKindOfMessage_bodyRead : ∀ t, errorKindOfMessage (ascii "failed to read response: " ++ t) = some ErrorKind.bodyRead := by
  intro t
  have e1 : (ascii "failed to create request: ").isPrefixOf (ascii "failed to read response: " ++ t) = false := by
    rfl
  have e2 : (ascii "request failed: ").isPrefixOf (ascii "failed to read response: " ++ t) = false := by rfl
  simp only [errorKindOfMessage, isPrefixOf_append, e1, e2]
  rfl

theorem errorKindOfMessage_api : ∀ t, errorKindOfMessage (ascii "API error: " ++ t) = some ErrorKind.api := by
  intro t
  have e1 : (ascii "failed to create request: ").isPrefixOf (ascii "API error: " ++ t) = false := by rfl
  have e2 : (ascii "request failed: ").isPrefixOf (ascii "API error: " ++ t) = false := by rfl
  have e3 : (ascii "failed to read response: ").isPrefixOf (ascii "API error: " ++ t) = false := by rfl
  simp only [errorKindOfMessage, isPrefixOf_append, e1, e2, e3]
  rfl

theorem errorKindOfMessage_http : ∀ t, errorKindOfMessage (ascii "HTTP " ++ t) = some ErrorKind.api := by
  intro t
  have e1 : (ascii "failed to create request: ").isPrefixOf (ascii "HTTP " ++ t) = false := by rfl
  have e2 : (ascii "request failed: ").isPrefixOf (ascii "HTTP " ++ t) = false := by rfl
  have e3 : (ascii "failed to read response: ").isPrefixOf (ascii "HTTP " ++ t) = false := by rfl
  have e4 : (ascii "API error: ").isPrefixOf (ascii "HTTP " ++ t) = false := by rfl
  simp only [errorKindOfMessage, isPrefixOf_append, e1, e2, e3, e4]
  rfl

theorem errorKindOfMessage_decode : ∀ t, errorKindOfMessage (ascii "failed to parse response: " ++ t) = some ErrorKind.decode := by
  intro t
  have e1 : (ascii "failed to create request: ").isPrefixOf (ascii "failed to parse response: " ++ t) = false := by
    rfl
  have e2 : (ascii "request failed: ").isPrefixOf (ascii "failed to parse response: " ++ t) = false := by rfl
  have e3 : (ascii "failed to read response: ").isPrefixOf (ascii "failed to parse response: " ++ t) = false := by
    rfl
  have e4 : (ascii "API error: ").isPrefixOf (ascii "failed to parse response: " ++ t) = false := by rfl
  have e5 : (ascii "HTTP ").isPrefixOf (ascii "failed to parse response: " ++ t) = false := by rfl
  simp only [errorKindOfMessage, isPrefixOf_append, e1, e2, e3, e4, e5]
  rfl
theorem fieldMatches_excl (k : Bytes) (a b : String) (h : foldName (ascii a) ≠ foldName (ascii b))
    (ha : fieldMatches k a = true) : fieldMatches k b = false := by
  simp only [fieldMatches, decide_eq_true_eq, decide_eq_false_iff_not] at *
  intro hb
  exact h (ha.symm.trans hb)

/-- What storing one member does to each field of the result and to the saved error. -/
theorem setMember_fields (acc : EntropyResult × Option JsonError) (m : Bytes × JSON) :
    (EntropyResult.setMember acc m).1.Data =
      (if fieldMatches m.1 "data" then (decodeString (ascii "data") acc.1.Data m.2).1 else acc.1.Data)
    ∧ (EntropyResult.setMember acc m).1.ProofID =
      (if fieldMatches m.1 "proofId" then (decodeString (ascii "proofId") acc.1.ProofID m.2).1
       else acc.1.ProofID)
    ∧ (EntropyResult.setMember acc m).1.Signature =
      (if fieldMatches m.1 "signature" then (decodeString (ascii "signature") acc.1.Signature m.2).1
       else acc.1.Signature)
    ∧ (EntropyResult.setMember acc m).1.PublicKey =
      (if fieldMatches m.1 "publicKey" then (decodeString (ascii "publicKey") acc.1.PublicKey m.2).1
       else acc.1.PublicKey)
    ∧ (EntropyResult.setMember acc m).1.SignatureType =
      (if fieldMatches m.1 "signatureType" then
        (decodeString (ascii "signatureType") acc.1.SignatureType m.2).1
       else acc.1.SignatureType)
    ∧ (EntropyResult.setMember acc m).1.Metadata =
      (if fieldMatches m.1 "metadata" then (decodeMap (ascii "metadata") acc.1.Metadata m.2).1
       else acc.1.Metadata) := by
  have x12 := fieldMatches_excl m.1 "data" "proofId" (by decide)
  have x13 := fieldMatches_excl m.1 "data" "signature" (by decide)
  have x14 := fieldMatches_excl m.1 "data" "publicKey" (by decide)
  have x15 := fieldMatches_excl m.1 "data" "signatureType" (by decide)
  have x16 := fieldMatches_excl m.1 "data" "metadata" (by decide)
  have x23 := fieldMatches_excl m.1 "proofId" "signature" (by decide)
  have x24 := fieldMatches_excl m.1 "proofId" "publicKey" (by decide)
  have x25 := fieldMatches_excl m.1 "proofId" "signatureType" (by decide)
  have x26 := fieldMatches_excl m.1 "proofId" "metadata" (by decide)
  have x34 := fieldMatches_excl m.1 "signature" "publicKey" (by decide)
  have x35 := fieldMatches_excl m.1 "signature" "signatureType" (by decide)
  have x36 := fieldMatches_excl m.1 "signature" "metadata" (by decide)
  have x45 := fieldMatches_excl m.1 "publicKey" "signatureType" (by decide)
  have x46 := fieldMatches_excl m.1 "publicKey" "metadata" (by decide)
  have x56 := fieldMatches_excl m.1 "signatureType" "metadata" (by decide)
  unfold EntropyResult.setMember
  by_cases h1 : fieldMatches m.1 "data" = true
  · simp [h1, x12 h1, x13 h1, x14 h1, x15 h1, x16 h1]
  · by_cases h2 : fieldMatches m.1 "proofId" = true
    · simp [h1, h2, x23 h2, x24 h2, x25 h2, x26 h2]
    · by_cases h3 : fieldMatches m.1 "signature" = true
      · simp [h1, h2, h3, x34 h3, x35 h3, x36 h3]
      · by_cases h4 : fieldMatches m.1 "publicKey" = true
        · simp [h1, h2, h3, h4, x45 h4, x46 h4]
        · by_cases h5 : fieldMatches m.1 "signatureType" = true
          · simp [h1, h2, h3, h4, h5, x56 h5]
          · by_cases h6 : fieldMatches m.1 "metadata" = true <;> simp [h1, h2, h3, h4, h5, h6]
theorem saveError_none (a b : Option JsonError) : saveError a b = none ↔ a = none ∧ b = none := by
  cases a <;> simp [saveError]

mutual
theorem valueInterface_fits (field : Bytes) : ∀ v : JSON,
    (valueInterface field v).2 = none ↔ numbersFit v = true
  | JSON.null => by simp [valueInterface, numbersFit]
  | JSON.bool _ => by simp [valueInterface, numbersFit]
  | JSON.str _ => by simp [valueInterface, numbersFit]
  | JSON.num lit => by
    simp only [valueInterface, numbersFit]
    cases float64Overflows lit <;> simp
  | JSON.arr items => by
    simp only [valueInterface, numbersFit]
    exact arrayInterface_fits field items
  | JSON.obj members => by
    simp only [valueInterface, numbersFit]
    exact objectInterface_fits field members
theorem arrayInterface_fits (field : Bytes) : ∀ items : List JSON,
    (valueInterface.arrayInterface field items).2 = none ↔ numbersFit.itemsFit items = true
  | [] => by simp [valueInterface.arrayInterface, numbersFit.itemsFit]
  | x :: xs => by
    simp only [valueInterface.arrayInterface, numbersFit.itemsFit, saveError_none, Bool.and_eq_true]
    rw [valueInterface_fits field x, arrayInterface_fits field xs]
theorem objectInterface_fits (field : Bytes) : ∀ members : List (Bytes × JSON),
    (valueInterface.objectInterface field members).2 = none ↔ numbersFit.membersFit members = true
  | [] => by simp [valueInterface.objectInterface, numbersFit.membersFit]
  | (k, v) :: ms => by
    simp only [valueInterface.objectInterface, numbersFit.membersFit, saveError_none, Bool.and_eq_true]
    rw [valueInterface_fits field v, objectInterface_fits field ms]
end

theorem decodeString_value (field cur : Bytes) (v : JSON) :
    (decodeString field cur v).1 = (match v with
      | JSON.str s => s
      | _ => cur) := by
  cases v <;> rfl

theorem decodeString_error (field cur : Bytes) (v : JSON) :
    (decodeString field cur v).2 = none ↔ (match v with
      | JSON.str _ => true
      | JSON.null => true
      | _ => false) = true := by
  cases v <;> simp [decodeString]

theorem decodeMap_value (field : String) (cur : GoMap) (v : JSON) :
    (decodeMap (ascii field) cur v).1 = (match v with
      | JSON.obj ms =>
        some ((valueInterface.objectInterface (ascii field) ms).1.foldl (fun g e => mapSet g e.1 e.2) (cur.getD []))
      | JSON.null => none
      | _ => cur) := by
  cases v <;> rfl

theorem decodeMap_error (field : Bytes) (cur : GoMap) (v : JSON) :
    (decodeMap field cur v).2 = none ↔ (match v with
      | JSON.null => true
      | JSON.obj members => numbersFit.membersFit members
      | _ => false) = true := by
  cases v <;> simp [decodeMap, objectInterface_fits]

theorem setMember_error (acc : EntropyResult × Option JsonError) (m : Bytes × JSON) :
    (EntropyResult.setMember acc m).2 = none ↔ acc.2 = none ∧ memberFits m = true := by
  unfold EntropyResult.setMember memberFits
  by_cases h1 : fieldMatches m.1 "data" = true
  · simp [h1, saveError_none, decodeString_error]
  · by_cases h2 : fieldMatches m.1 "proofId" = true
    · simp [h1, h2, saveError_none, decodeString_error]
    · by_cases h3 : fieldMatches m.1 "signature" = true
      · simp [h1, h2, h3, saveError_none, decodeString_error]
      · by_cases h4 : fieldMatches m.1 "publicKey" = true
        · simp [h1, h2, h3, h4, saveError_none, decodeString_error]
        · by_cases h5 : fieldMatches m.1 "signatureType" = true
          · simp [h1, h2, h3, h4, h5, saveError_none, decodeString_error]
          · by_cases h6 : fieldMatches m.1 "metadata" = true
            · simp [h1, h2, h3, h4, h5, h6, saveError_none, decodeMap_error]
            · simp [h1, h2, h3, h4, h5, h6]

theorem foldl_setMember_error (members : List (Bytes × JSON)) :
    ∀ acc : EntropyResult × Option JsonError,
      (members.foldl EntropyResult.setMember acc).2 = none ↔
        acc.2 = none ∧ ∀ m ∈ members, memberFits m = true := by
  induction members with
  | nil => intro acc; simp
  | cons m ms ih =>
    intro acc
    rw [List.foldl_cons, ih, setMember_error]
    simp only [List.mem_cons, forall_eq_or_imp]
    tauto

theorem foldl_projection {α β σ : Type} (step : σ → β → σ) (proj : σ → α) (p : β → Bool)
    (u : α → β → α) (h : ∀ s b, proj (step s b) = if p b = true then u (proj s) b else proj s) :
    ∀ (l : List β) (s : σ), proj (l.foldl step s) = (l.filter p).foldl u (proj s) := by
  intro l
  induction l with
  | nil => intro s; rfl
  | cons b bs ih =>
    intro s
    rw [List.foldl_cons, ih, h]
    by_cases hp : p b = true
    · simp [List.filter, hp]
    · simp [List.filter, hp]

/-- The fields of the decoded result are the values the body gives them. -/
theorem decodeEntropyResult_fields (members : List (Bytes × JSON)) :
    (decodeEntropyResult (JSON.obj members)).1 =
      ⟨stringField members "data", stringField members "proofId", stringField members "signature",
       stringField members "publicKey", stringField members "signatureType",
       mapField members "metadata"⟩ := by
  have hD := foldl_projection EntropyResult.setMember (fun s => s.1.Data)
    (fun m => fieldMatches m.1 "data") (fun cur m => (decodeString (ascii "data") cur m.2).1)
    (fun s b => (setMember_fields s b).1) members (EntropyResult.zero, none)
  have hP := foldl_projection EntropyResult.setMember (fun s => s.1.ProofID)
    (fun m => fieldMatches m.1 "proofId") (fun cur m => (decodeString (ascii "proofId") cur m.2).1)
    (fun s b => (setMember_fields s b).2.1) members (EntropyResult.zero, none)
  have hS := foldl_projection EntropyResult.setMember (fun s => s.1.Signature)
    (fun m => fieldMatches m.1 "signature") (fun cur m => (decodeString (ascii "signature") cur m.2).1)
    (fun s b => (setMember_fields s b).2.2.1) members (EntropyResult.zero, none)
  have hK := foldl_projection EntropyResult.setMember (fun s => s.1.PublicKey)
    (fun m => fieldMatches m.1 "publicKey") (fun cur m => (decodeString (ascii "publicKey") cur m.2).1)
    (fun s b => (setMember_fields s b).2.2.2.1) members (EntropyResult.zero, none)
  have hT := foldl_projection EntropyResult.setMember (fun s => s.1.SignatureType)
    (fun m => fieldMatches m.1 "signatureType")
    (fun cur m => (decodeString (ascii "signatureType") cur m.2).1)
    (fun s b => (setMember_fields s b).2.2.2.2.1) members (EntropyResult.zero, none)
  have hM := foldl_projection EntropyResult.setMember (fun s => s.1.Metadata)
    (fun m => fieldMatches m.1 "metadata") (fun cur m => (decodeMap (ascii "metadata") cur m.2).1)
    (fun s b => (setMember_fields s b).2.2.2.2.2) members (EntropyResult.zero, none)
  simp only [decodeString_value, decodeMap_value] at hD hP hS hK hT hM
  simp only [decodeEntropyResult]
  generalize List.foldl EntropyResult.setMember (EntropyResult.zero, none) members = r at hD hP hS hK hT hM
  obtain ⟨⟨d, p, s, k, t, m⟩, e⟩ := r
  simp only at hD hP hS hK hT hM
  rw [hD, hP, hS, hK, hT, hM]
  rfl

/-! ## Theorems -/

/-- C1: for every client and every transport, `Generate(nil)` and
`Generate(&GenerateOptions{Bytes: 32, Format: "hex"})` build the same request
(method GET, URL `BaseURL + "/api/random?bytes=32&format=hex"`, header
`X-API-Key` set to the API key, or the same `http.NewRequest` error), and the
two calls have the same outcome. -/
theorem generate_nil_same_request (rt : Runtime) (c : Client) :
    generateRequest rt c none = generateRequest rt c (some ⟨32, ascii "hex", [], []⟩)
    ∧ generateRequest rt c none =
        (match rt.urlParseError (c.BaseURL ++ ascii "/api/random?bytes=32&format=hex") with
         | some e => Except.error (Cause.lib e)
         | none =>
           Except.ok ⟨ascii "GET", c.BaseURL ++ ascii "/api/random?bytes=32&format=hex",
             [(ascii "X-Api-Key", [c.APIKey])]⟩)
    ∧ Generate rt c none = Generate rt c (some ⟨32, ascii "hex", [], []⟩) := by
  have hq : ascii "/api/random?" ++ ascii "bytes=32&format=hex" = ascii "/api/random?bytes=32&format=hex" := by
    decide
  have h2 : generateRequest rt c none =
        (match rt.urlParseError (c.BaseURL ++ ascii "/api/random?bytes=32&format=hex") with
         | some e => Except.error (Cause.lib e)
         | none =>
           Except.ok ⟨ascii "GET", c.BaseURL ++ ascii "/api/random?bytes=32&format=hex",
             [(ascii "X-Api-Key", [c.APIKey])]⟩) := by
    rw [generateRequest_eq]
    simp only [Option.getD, defaultQuery_eq, List.append_assoc, hq]
  exact ⟨rfl, h2, rfl⟩

/-- C3: when the status code is not 200 and the body, read in full, parses as a
JSON object whose member `error` is the JSON string `m`, `Generate` returns a
nil result and an error whose message is exactly `API error: ` followed by `m`. -/
theorem generate_api_error_message (rt : Runtime) (c : Client) (opts : Option GenerateOptions)
    (req : Request) (resp : Response) (body : Bytes) (members : List (Bytes × JSON)) (m : Bytes)
    (hreq : generateRequest rt c opts = Except.ok req)
    (hresp : c.HTTPClient req = Except.ok resp)
    (hbody : resp.Body = ⟨body, none⟩)
    (hstatus : resp.StatusCode ≠ 200)
    (hparse : parseDocument body = Except.ok (JSON.obj members))
    (herror : lookupMember members (ascii "error") = some (JSON.str m)) :
    Generate rt c opts = (none, some ⟨ascii "API error: " ++ m, none⟩) := by
  have hm : apiErrorMessage body = some m := by simp [apiErrorMessage, hparse, herror]
  simp only [Generate, hreq, hresp]
  rw [generateResponse_error_status rt resp body hbody hstatus, hm]
  rfl

/-- C3 at status 403 and body `{"error":"invalid key"}`: the message is
`API error: invalid key`. -/
theorem generate_api_error_message_witness :
    Generate stubRuntime (stubClient (ascii "k") ⟨403, ⟨ascii "\x7b\"error\":\"invalid key\"\x7d", none⟩⟩) none
      = (none, some ⟨ascii "API error: invalid key", none⟩) :=
  generate_api_error_message stubRuntime
    (stubClient (ascii "k") ⟨403, ⟨ascii "\x7b\"error\":\"invalid key\"\x7d", none⟩⟩) none
    ⟨ascii "GET", ascii "https://qrngapi.com/api/random?bytes=32&format=hex", [(ascii "X-Api-Key", [ascii "k"])]⟩
    ⟨403, ⟨ascii "\x7b\"error\":\"invalid key\"\x7d", none⟩⟩ (ascii "\x7b\"error\":\"invalid key\"\x7d")
    [(ascii "error", JSON.str (ascii "invalid key"))] (ascii "invalid key")
    rfl rfl rfl (by decide) rfl rfl

/-- C4: when the status code `s` is not 200 and the body `b`, read in full,
does not parse as a JSON object whose member `error` is a string, `Generate`
returns a nil result and an error whose message is exactly
`HTTP ` + decimal(`s`) + `: ` + `b`. -/
theorem generate_http_error_message (rt : Runtime) (c : Client) (opts : Option GenerateOptions)
    (req : Request) (resp : Response) (body : Bytes)
    (hreq : generateRequest rt c opts = Except.ok req)
    (hresp : c.HTTPClient req = Except.ok resp)
    (hbody : resp.Body = ⟨body, none⟩)
    (hstatus : resp.StatusCode ≠ 200)
    (hnomsg : ∀ members m, parseDocument body = Except.ok (JSON.obj members) →
      lookupMember members (ascii "error") ≠ some (JSON.str m)) :
    Generate rt c opts =
      (none, some ⟨ascii "HTTP " ++ fmtInt resp.StatusCode ++ ascii ": " ++ body, none⟩) := by
  have hm : apiErrorMessage body = none := by
    unfold apiErrorMessage
    cases hp : parseDocument body with
    | error e => rfl
    | ok doc =>
      cases doc with
      | obj members =>
        cases hl : lookupMember members (ascii "error") with
        | none => simp [hl]
        | some v =>
          cases v with
          | str m => exact absurd hl (hnomsg members m hp)
          | _ => simp [hl]
      | _ => simp
  simp only [Generate, hreq, hresp]
  rw [generateResponse_error_status rt resp body hbody hstatus, hm]
  rfl

/-- C4 at status 500 and the body `internal failure`, which is not JSON: the
message is `HTTP 500: internal failure`. -/
theorem generate_http_error_message_witness :
    Generate stubRuntime (stubClient (ascii "k") ⟨500, ⟨ascii "internal failure", none⟩⟩) none
      = (none, some ⟨ascii "HTTP 500: internal failure", none⟩) :=
  generate_http_error_message stubRuntime
    (stubClient (ascii "k") ⟨500, ⟨ascii "internal failure", none⟩⟩) none
    ⟨ascii "GET", ascii "https://qrngapi.com/api/random?bytes=32&format=hex", [(ascii "X-Api-Key", [ascii "k"])]⟩
    ⟨500, ⟨ascii "internal failure", none⟩⟩ (ascii "internal failure")
    rfl rfl rfl (by decide)
    (by
      intro members m h
      have hp : parseDocument (ascii "internal failure") = Except.error (JsonError.syntaxError 1) := by rfl
      rw [hp] at h
      cases h)

/-- C2: for every non-nil `GenerateOptions` `o`, the query string of `Generate`
is the URL-query encoding of the list `bytes` = decimal(`o.Bytes`), `format` =
`o.Format`, then `method` = `o.Method` iff non-empty, then `signatureType` =
`o.SignatureType` iff non-empty, in this ascending key order; it depends on `o`
alone, and decoding it with `url.ParseQuery` yields exactly these keys, once
each, with the original strings as values. -/
theorem generate_query_encodes_params (o : GenerateOptions) :
    generateQuery o = specEncode (specParams o)
    ∧ (∀ (rt : Runtime) (c : Client),
        generateRequest rt c (some o) =
          (match rt.urlParseError (c.BaseURL ++ ascii "/api/random?" ++ specEncode (specParams o)) with
           | some e => Except.error (Cause.lib e)
           | none =>
             Except.ok ⟨ascii "GET", c.BaseURL ++ ascii "/api/random?" ++ specEncode (specParams o),
               [(ascii "X-Api-Key", [c.APIKey])]⟩))
    ∧ parseQuery (generateQuery o) = ((specParams o).map (fun p => (p.1, [p.2])), true)
    ∧ ((specParams o).map Prod.fst).Pairwise (fun a b => bytesLe a b = true ∧ a ≠ b) := by
  have q1 : queryEscape (ascii "bytes") = ascii "bytes" := by decide
  have q2 : queryEscape (ascii "format") = ascii "format" := by decide
  have q3 : queryEscape (ascii "method") = ascii "method" := by decide
  have q4 : queryEscape (ascii "signatureType") = ascii "signatureType" := by decide
  have a1 : ascii "bytes=" = ascii "bytes" ++ [(61 : Byte)] := by decide
  have a2 : ascii "&format=" = (38 : Byte) :: ascii "format" ++ [(61 : Byte)] := by decide
  have a3 : ascii "&method=" = (38 : Byte) :: ascii "method" ++ [(61 : Byte)] := by decide
  have a4 : ascii "&signatureType=" = (38 : Byte) :: ascii "signatureType" ++ [(61 : Byte)] := by decide
  have n1 : ¬ ascii "bytes" = ascii "format" := by decide
  have n2 : ¬ ascii "bytes" = ascii "method" := by decide
  have n3 : ¬ ascii "format" = ascii "method" := by decide
  have n4 : ¬ ascii "bytes" = ascii "signatureType" := by decide
  have n5 : ¬ ascii "format" = ascii "signatureType" := by decide
  have n6 : ¬ ascii "method" = ascii "signatureType" := by decide
  have l1 : bytesLe (ascii "method") (ascii "signatureType") = true := by decide
  have l2 : bytesLe (ascii "format") (ascii "method") = true := by decide
  have l3 : bytesLe (ascii "format") (ascii "signatureType") = true := by decide
  have l4 : bytesLe (ascii "bytes") (ascii "format") = true := by decide
  have l5 : bytesLe (ascii "bytes") (ascii "method") = true := by decide
  have l6 : bytesLe (ascii "bytes") (ascii "signatureType") = true := by decide
  have hq : generateQuery o = specEncode (specParams o) := by
    rw [generateQuery_eq, a1, a2, a3, a4]
    by_cases hm : o.Method = [] <;> by_cases hs : o.SignatureType = [] <;>
      simp [specParams, specEncode, hm, hs, q1, q2, q3, q4]
  refine ⟨hq, ?_, ?_, ?_⟩
  · intro rt c
    rw [generateRequest_eq, ← hq]
    rfl
  · rw [parseQuery_generateQuery]
    by_cases hm : o.Method = [] <;> by_cases hs : o.SignatureType = [] <;>
      simp [specParams, generateParams, Values.add, hm, hs, n1, n2, n3, n4, n5, n6]
  · by_cases hm : o.Method = [] <;> by_cases hs : o.SignatureType = [] <;>
      simp [specParams, hm, hs, n1, n2, n3, n4, n5, n6, l1, l2, l3, l4, l5, l6]

/-- C8: the message of an error of `Generate` determines its failure kind, for
every wrapped cause, service message, status code and body: reading the kind
off the message format gives back the failure that occurred, so errors of two
different kinds never have the same message. -/
theorem generate_error_kind_from_message :
    (∀ (rt : Runtime) (c : Client) (opts : Option GenerateOptions),
      ((Generate rt c opts).2.bind fun e => errorKindOfMessage e.msg) = generateErrorKind rt c opts)
    ∧ (∀ (rt1 rt2 : Runtime) (c1 c2 : Client) (o1 o2 : Option GenerateOptions) (e1 e2 : GoError),
        (Generate rt1 c1 o1).2 = some e1 → (Generate rt2 c2 o2).2 = some e2 → e1.msg = e2.msg →
          generateErrorKind rt1 c1 o1 = generateErrorKind rt2 c2 o2) := by
  have p1 := errorKindOfMessage_requestBuild
  have p2 := errorKindOfMessage_transport
  have p3 := errorKindOfMessage_bodyRead
  have p4 := errorKindOfMessage_api
  have p5 := errorKindOfMessage_http
  have p6 := errorKindOfMessage_decode
  have main : ∀ (rt : Runtime) (c : Client) (opts : Option GenerateOptions),
      ((Generate rt c opts).2.bind fun e => errorKindOfMessage e.msg) = generateErrorKind rt c opts := by
    intro rt c opts
    unfold Generate generateErrorKind
    cases generateRequest rt c opts with
    | error err => exact p1 _
    | ok req =>
      simp only
      cases c.HTTPClient req with
      | error err => exact p2 _
      | ok resp =>
        obtain ⟨status, data, rerr⟩ := resp
        cases rerr with
        | some e => exact p3 _
        | none =>
          simp only [generateResponse, readAll, Option.map]
          by_cases hs : status = 200
          · simp only [hs, ne_eq, not_true_eq_false, ite_false]
            cases hu : (unmarshalEntropyResult data).2 with
            | some err =>
              have : unmarshalEntropyResult data = ((unmarshalEntropyResult data).1, some err) := by
                rw [← hu]
              rw [this]
              exact p6 _
            | none =>
              have : unmarshalEntropyResult data = ((unmarshalEntropyResult data).1, none) := by
                rw [← hu]
              rw [this]
              rfl
          · simp only [hs, ne_eq, not_false_eq_true, ite_true]
            split
            · exact p4 _
            · simp only [errorf, List.append_assoc]
              exact p5 _
  refine ⟨main, ?_⟩
  intro rt1 rt2 c1 c2 o1 o2 e1 e2 h1 h2 hmsg
  rw [← main rt1 c1 o1, ← main rt2 c2 o2, h1, h2]
  simp [hmsg]

/-- C6: for every input and every behaviour of the runtime and the transport,
`Generate` and `Health` each return exactly one of a non-nil result and a
non-nil error. -/
theorem generate_health_result_xor_error (rt : Runtime) (c : Client) (opts : Option GenerateOptions) :
    (((Generate rt c opts).1.isSome = true ∧ (Generate rt c opts).2 = none)
      ∨ ((Generate rt c opts).1 = none ∧ (Generate rt c opts).2.isSome = true))
    ∧ (((Health rt c).1.isSome = true ∧ (Health rt c).2 = none)
      ∨ ((Health rt c).1 = none ∧ (Health rt c).2.isSome = true)) := by
  constructor
  · unfold Generate
    cases generateRequest rt c opts with
    | error err => exact Or.inr ⟨rfl, rfl⟩
    | ok req =>
      simp only
      cases c.HTTPClient req with
      | error err => exact Or.inr ⟨rfl, rfl⟩
      | ok resp =>
        simp only [generateResponse]
        split
        · exact Or.inr ⟨rfl, rfl⟩
        · split
          · split
            · exact Or.inr ⟨rfl, rfl⟩
            · exact Or.inr ⟨rfl, rfl⟩
          · split
            · exact Or.inr ⟨rfl, rfl⟩
            · exact Or.inl ⟨rfl, rfl⟩
  · unfold Health
    cases healthRequest rt c with
    | error err => exact Or.inr ⟨rfl, rfl⟩
    | ok req =>
      simp only
      cases c.HTTPClient req with
      | error err => exact Or.inr ⟨rfl, rfl⟩
      | ok resp =>
        simp only [healthResponse]
        split
        · exact Or.inr ⟨rfl, rfl⟩
        · exact Or.inl ⟨rfl, rfl⟩

/-- C10: the outcome of `Health` does not depend on the HTTP status code: with
the same bodies and any two assignments of status codes to the responses,
`Health` returns the same pair, namely the decoded `HealthStatus` when the body
decodes and an error `failed to parse response: ...` when it does not; the
message of an error of `Health` never has the format of an API error. -/
theorem health_outcome_ignores_status (rt : Runtime) (apiKey baseURL : Bytes)
    (transport : Request → Except Bytes Body) (status1 status2 : Request → Int) :
    Health rt ⟨apiKey, baseURL, fun r => (transport r).map (fun b => ⟨status1 r, b⟩)⟩
      = Health rt ⟨apiKey, baseURL, fun r => (transport r).map (fun b => ⟨status2 r, b⟩)⟩
    ∧ (∀ (s : Int) (body : Body),
        healthResponse rt ⟨s, body⟩ =
          (match decodeHealthBody body with
           | (_, some err) => (none, some ⟨ascii "failed to parse response: " ++ err.text rt, some err⟩)
           | (health, none) => (some health, none)))
    ∧ (∀ c : Client, ((Health rt c).2.bind fun e => errorKindOfMessage e.msg) ≠ some ErrorKind.api) := by
  refine ⟨?_, fun s body => rfl, ?_⟩
  · unfold Health healthRequest
    simp only
    cases newRequest rt (ascii "GET") (baseURL ++ ascii "/api/health") with
    | error err => rfl
    | ok req =>
      simp only
      cases transport { req with header := Header.set req.header (ascii "X-API-Key") apiKey } with
      | error err => rfl
      | ok body => rfl
  · intro c
    unfold Health
    cases healthRequest rt c with
    | error err =>
      simp only [Option.bind, errorfW, errorKindOfMessage_requestBuild]
      decide
    | ok req =>
      simp only
      cases c.HTTPClient req with
      | error err =>
        simp only [Option.bind, errorfW, errorKindOfMessage_transport]
        decide
      | ok resp =>
        simp only [healthResponse]
        split
        · simp only [Option.bind, errorfW, errorKindOfMessage_decode]
          decide
        · simp

/-- C9 (the code departs from the claim): when reading the body fails with
`connection reset` after the bytes `{"status":`, `Health` reports
`failed to parse response: connection reset`, the format of its decode
failures, where `Generate` reports `failed to read response: connection reset`
for the same response; when the read fails after a complete JSON object,
`Health` reports no error at all. -/
theorem health_read_failure_reported_as_parse_failure :
    Health stubRuntime
        (stubClient (ascii "k") ⟨200, ⟨ascii "\x7b\"status\":", some (ascii "connection reset")⟩⟩)
      = (none, some ⟨ascii "failed to parse response: connection reset",
          some (Cause.lib (ascii "connection reset"))⟩)
    ∧ Generate stubRuntime
        (stubClient (ascii "k") ⟨200, ⟨ascii "\x7b\"status\":", some (ascii "connection reset")⟩⟩) none
      = (none, some ⟨ascii "failed to read response: connection reset",
          some (Cause.lib (ascii "connection reset"))⟩)
    ∧ Health stubRuntime
        (stubClient (ascii "k") ⟨200, ⟨ascii "\x7b\"status\":\"ok\"\x7d", some (ascii "connection reset")⟩⟩)
      = (some ⟨ascii "ok", none, []⟩, none) :=
  ⟨rfl, rfl, rfl⟩

/-- C7 fails as stated: for the non-nil options `{Bytes: 16}` with `Format`
left empty, `Generate` requests `.../api/random?bytes=16&format=`; the query
carries `format` with an empty value and not the default `hex`. -/
theorem generate_empty_format_not_defaulted :
    generateQuery ⟨16, [], [], []⟩ = ascii "bytes=16&format="
    ∧ parseQuery (generateQuery ⟨16, [], [], []⟩)
        = ([(ascii "bytes", [ascii "16"]), (ascii "format", [[]])], true)
    ∧ generateRequest stubRuntime (stubClient (ascii "k") ⟨200, ⟨[], none⟩⟩) (some ⟨16, [], [], []⟩)
        = Except.ok ⟨ascii "GET", ascii "https://qrngapi.com/api/random?bytes=16&format=",
            [(ascii "X-Api-Key", [ascii "k"])]⟩ := by
  refine ⟨by decide, by decide, rfl⟩

/-- C7 as amended: `Generate` sends the default `format=hex` when the options
are nil; for non-nil options whose `Format` is the empty string it sends the
parameter `format` with an empty value, between `bytes` and the optional
`method` and `signatureType`. -/
theorem generate_empty_format_sent_empty (o : GenerateOptions) (h : o.Format = []) :
    generateQuery o =
        ascii "bytes=" ++ queryEscape (fmtInt o.Bytes) ++ ascii "&format="
          ++ (if o.Method ≠ [] then ascii "&method=" ++ queryEscape o.Method else [])
          ++ (if o.SignatureType ≠ [] then ascii "&signatureType=" ++ queryEscape o.SignatureType else [])
    ∧ (ascii "format", [([] : Bytes)]) ∈ (parseQuery (generateQuery o)).1
    ∧ generateQuery defaultOptions = ascii "bytes=32&format=hex" := by
  refine ⟨?_, ?_, defaultQuery_eq⟩
  · rw [generateQuery_eq, h]
    simp [queryEscape]
  · rw [parseQuery_generateQuery]
    have n1 : ¬ ascii "bytes" = ascii "format" := by decide
    have n2 : ¬ ascii "bytes" = ascii "method" := by decide
    have n3 : ¬ ascii "format" = ascii "method" := by decide
    have n4 : ¬ ascii "bytes" = ascii "signatureType" := by decide
    have n5 : ¬ ascii "format" = ascii "signatureType" := by decide
    have n6 : ¬ ascii "method" = ascii "signatureType" := by decide
    by_cases hm : o.Method = [] <;> by_cases hs : o.SignatureType = [] <;>
      simp [generateParams, Values.add, h, hm, hs, n1, n2, n3, n4, n5, n6]

/-- The amended C7 at the options `{Bytes: 16}`. -/
theorem generate_empty_format_sent_empty_witness :
    (⟨16, [], [], []⟩ : GenerateOptions).Format = []
    ∧ (ascii "format", [([] : Bytes)]) ∈ (parseQuery (generateQuery ⟨16, [], [], []⟩)).1 :=
  ⟨rfl, (generate_empty_format_sent_empty ⟨16, [], [], []⟩ rfl).2.1⟩

/-- C5 fails as stated: the body `{"data":"ab","metadata":{"n":1e400}}` is valid
JSON, an object whose `data` is a string and whose `metadata` is an object, yet
with status 200 `Generate` returns a nil result and a decode error, because
the number `1e400` inside `metadata` is outside the range of `float64`. -/
theorem generate_rejects_metadata_number_out_of_range :
    parseDocument (ascii "\x7b\"data\":\"ab\",\"metadata\":\x7b\"n\":1e400\x7d\x7d")
      = Except.ok (JSON.obj [(ascii "data", JSON.str (ascii "ab")),
          (ascii "metadata", JSON.obj [(ascii "n", JSON.num (ascii "1e400"))])])
    ∧ Generate stubRuntime
        (stubClient (ascii "k") ⟨200, ⟨ascii "\x7b\"data\":\"ab\",\"metadata\":\x7b\"n\":1e400\x7d\x7d", none⟩⟩) none
      = (none, some ⟨ascii "failed to parse response: json error",
          some (Cause.json (JsonError.unmarshalType (ascii "number 1e400") (ascii "metadata")))⟩) :=
  ⟨rfl, rfl⟩

/-- C5 as amended: for a response with status code 200 whose body was read in
full, the outcome of `Generate` is decided by the body alone.  A body that is
not valid JSON, a document that is neither an object nor `null`, and an object
with a member that does not fit (a string field given something other than a
string or `null`, `metadata` given something other than an object or `null`,
or a number inside `metadata` outside the range of `float64`) give a nil
result and an error `failed to parse response: ` wrapping the error of
`encoding/json`.  `null` gives the zero result, and an object whose members all
fit gives a nil error and the result whose fields are the values of the body,
unknown keys skipped and `metadata` nested arbitrarily. -/
theorem generate_ok_status_outcome (rt : Runtime) (c : Client) (opts : Option GenerateOptions)
    (req : Request) (resp : Response) (body : Bytes)
    (hreq : generateRequest rt c opts = Except.ok req)
    (hresp : c.HTTPClient req = Except.ok resp)
    (hbody : resp.Body = ⟨body, none⟩)
    (hstatus : resp.StatusCode = 200) :
    (∀ e, parseDocument body = Except.error e →
      Generate rt c opts =
        (none, some ⟨ascii "failed to parse response: " ++ rt.jsonErrorText e, some (Cause.json e)⟩))
    ∧ (∀ doc, parseDocument body = Except.ok doc → (∀ ms, doc ≠ JSON.obj ms) → doc ≠ JSON.null →
      Generate rt c opts =
        (none, some ⟨ascii "failed to parse response: "
            ++ rt.jsonErrorText (JsonError.unmarshalType (kindName doc) []),
          some (Cause.json (JsonError.unmarshalType (kindName doc) []))⟩))
    ∧ (parseDocument body = Except.ok JSON.null → Generate rt c opts = (some EntropyResult.zero, none))
    ∧ (∀ members, parseDocument body = Except.ok (JSON.obj members) →
        (∃ m ∈ members, memberFits m = false) →
        ∃ e, Generate rt c opts =
          (none, some ⟨ascii "failed to parse response: " ++ rt.jsonErrorText e, some (Cause.json e)⟩))
    ∧ (∀ members, parseDocument body = Except.ok (JSON.obj members) →
        (∀ m ∈ members, memberFits m = true) →
        Generate rt c opts =
          (some ⟨stringField members "data", stringField members "proofId",
            stringField members "signature", stringField members "publicKey",
            stringField members "signatureType", mapField members "metadata"⟩, none)) := by
  have hG : Generate rt c opts =
      (match unmarshalEntropyResult body with
       | (_, some err) => (none, some (errorfW rt "failed to parse response: " (Cause.json err)))
       | (result, none) => (some result, none)) := by
    simp only [Generate, hreq, hresp, generateResponse, readAll, hbody, Option.map, hstatus, ne_eq,
      not_true_eq_false, ite_false]
  refine ⟨?_, ?_, ?_, ?_, ?_⟩
  · intro e he
    rw [hG]
    simp only [unmarshalEntropyResult, he]
    rfl
  · intro doc hdoc hobj hnull
    rw [hG]
    simp only [unmarshalEntropyResult, hdoc]
    cases doc with
    | obj ms => exact absurd rfl (hobj ms)
    | null => exact absurd rfl hnull
    | _ => rfl
  · intro hdoc
    rw [hG]
    simp only [unmarshalEntropyResult, hdoc]
    rfl
  · intro members hdoc hbad
    rw [hG]
    simp only [unmarshalEntropyResult, hdoc]
    cases herr : (decodeEntropyResult (JSON.obj members)).2 with
    | none =>
      exfalso
      have h := (foldl_setMember_error members (EntropyResult.zero, none)).1 herr
      obtain ⟨m, hm, hfit⟩ := hbad
      rw [h.2 m hm] at hfit
      cases hfit
    | some e =>
      refine ⟨e, ?_⟩
      have hpair : decodeEntropyResult (JSON.obj members) = ((decodeEntropyResult (JSON.obj members)).1, some e) := by
        rw [← herr]
      rw [hpair]
      rfl
  · intro members hdoc hfit
    rw [hG]
    simp only [unmarshalEntropyResult, hdoc]
    have herr : (decodeEntropyResult (JSON.obj members)).2 = none :=
      (foldl_setMember_error members (EntropyResult.zero, none)).2 ⟨rfl, hfit⟩
    have hpair : decodeEntropyResult (JSON.obj members) = ((decodeEntropyResult (JSON.obj members)).1, none) := by
      rw [← herr]
    rw [hpair, decodeEntropyResult_fields]

/-- The amended C5 at status 200 and a body with all six fields, an unknown key
and nested `metadata`: the result holds the values of the body. -/
theorem generate_ok_status_outcome_witness :
    Generate stubRuntime
        (stubClient (ascii "k") ⟨200, ⟨ascii
          "\x7b\"data\":\"ab12\",\"proofId\":\"p-1\",\"signature\":\"c2ln\",\"publicKey\":\"cGs=\",\"signatureType\":\"ed25519\",\"metadata\":\x7b\"source\":\"qpu\",\"samples\":[1,2.5,\x7b\"deep\":null\x7d]\x7d,\"extra\":true\x7d",
          none⟩⟩) none
      = (some ⟨ascii "ab12", ascii "p-1", ascii "c2ln", ascii "cGs=", ascii "ed25519",
          some [(ascii "source", GoValue.string (ascii "qpu")),
            (ascii "samples", GoValue.slice [GoValue.float64 (ascii "1"), GoValue.float64 (ascii "2.5"),
              GoValue.map [(ascii "deep", GoValue.nil)]])]⟩, none) :=
  (generate_ok_status_outcome stubRuntime
    (stubClient (ascii "k") ⟨200, ⟨ascii
      "\x7b\"data\":\"ab12\",\"proofId\":\"p-1\",\"signature\":\"c2ln\",\"publicKey\":\"cGs=\",\"signatureType\":\"ed25519\",\"metadata\":\x7b\"source\":\"qpu\",\"samples\":[1,2.5,\x7b\"deep\":null\x7d]\x7d,\"extra\":true\x7d",
      none⟩⟩) none
    ⟨ascii "GET", ascii "https://qrngapi.com/api/random?bytes=32&format=hex", [(ascii "X-Api-Key", [ascii "k"])]⟩
    ⟨200, ⟨ascii
      "\x7b\"data\":\"ab12\",\"proofId\":\"p-1\",\"signature\":\"c2ln\",\"publicKey\":\"cGs=\",\"signatureType\":\"ed25519\",\"metadata\":\x7b\"source\":\"qpu\",\"samples\":[1,2.5,\x7b\"deep\":null\x7d]\x7d,\"extra\":true\x7d",
      none⟩⟩
    (ascii
      "\x7b\"data\":\"ab12\",\"proofId\":\"p-1\",\"signature\":\"c2ln\",\"publicKey\":\"cGs=\",\"signatureType\":\"ed25519\",\"metadata\":\x7b\"source\":\"qpu\",\"samples\":[1,2.5,\x7b\"deep\":null\x7d]\x7d,\"extra\":true\x7d")
    rfl rfl rfl rfl).2.2.2.2
    [(ascii "data", JSON.str (ascii "ab12")), (ascii "proofId", JSON.str (ascii "p-1")),
     (ascii "signature", JSON.str (ascii "c2ln")), (ascii "publicKey", JSON.str (ascii "cGs=")),
     (ascii "signatureType", JSON.str (ascii "ed25519")),
     (ascii "metadata", JSON.obj [(ascii "source", JSON.str (ascii "qpu")),
        (ascii "samples", JSON.arr [JSON.num (ascii "1"), JSON.num (ascii "2.5"),
          JSON.obj [(ascii "deep", JSON.null)]])]),
     (ascii "extra", JSON.bool true)]
    rfl (by decide)

end Qrng
